import Mathlib

/-!
# MEMEX1000: the scan, score, decide, record pipeline of `src/server.js`

A shallow embedding of the decision logic of `server.js`:

* `scanMemes` / `analyzeToken`  (market scanner, lines 125-170),
* `trackWhale` / `scanWhales`   (whale tracker, lines 173-210),
* `execTrade` / `copyTrade`     (trade executor and ledger, lines 213-250),
* the whale callback of `startCrons` (lines 333-341).

Modelling conventions.

* A JavaScript number is `JSNum`: NaN, an infinity, or a finite value held
  as a rational.  Sums, products and quotients are rounded to the nearest
  IEEE 754 binary64 value, ties to even (`roundDouble`), and overflow to an
  infinity.  The sign of a zero is not kept; nothing here observes it.
* The case maps `String.prototype.toLowerCase` and `toUpperCase` belong to
  the host; they are the two functions of a `Runtime`, constrained only on
  ASCII text, and every definition that folds case takes the runtime as its
  first argument.
* A loosely typed JSON field is `JSVal`: absent, a number, or a non-empty
  string carrying the number that is read from it.
* Network responses, `Math.random()` draws and the SQL store are explicit
  arguments: a response is `Option (List _)` (`none` is a failed or
  malformed fetch), the random draws of one call are an `Entropy` record,
  and the store is `Option Ledger` (`none` is the module variable `db`
  left unset).
* The store follows the two `CREATE TABLE` statements of lines 91-114: a
  `VARCHAR(n)` column rejects a longer string (trailing blanks apart) and a
  text holding the character of code 0, a `DECIMAL(20,10)` column rounds to
  ten decimals, half away from zero, and rejects a magnitude of `10^10` or
  more.  A number reaches the store as the decimal text
  `Number.prototype.toString` gives it (`toStringValue`).  A rejected
  statement makes `execTrade` throw, which is `Except.error`; statements
  already executed stay written.
* Strings are sequences of Unicode characters; `slice`, `substr` and
  `substring` count characters, which is what the source does on text of
  the Basic Multilingual Plane.
-/

set_option exponentiation.threshold 4000
set_option maxRecDepth 20000

namespace Memex

/-! ## JavaScript numbers -/

/-- A JavaScript number: NaN, a finite value, or an infinity (`inf true` is
the negative one). -/
inductive JSNum where
  | nan
  | fin (q : ℚ)
  | inf (negative : Bool)
  deriving DecidableEq, Repr

/-- The quotient `n / d` rounded to the nearest natural number, ties to the
even one. -/
def roundHalfEven (n d : ℕ) : ℕ :=
  let qt := n / d
  let r := n % d
  if 2 * r < d then qt
  else if d < 2 * r then qt + 1
  else if qt % 2 = 0 then qt else qt + 1

/-- The number of binary digits of `n`, with `fuel` at least that number. -/
def bitLen : ℕ → ℕ → ℕ
  | 0, _ => 0
  | fuel + 1, n => if n = 0 then 0 else bitLen fuel (n / 2) + 1

/-- The binary exponent of `n / d` for positive `n` and `d`: the integer `e`
with `2^e ≤ n / d < 2^(e+1)`. -/
def binExp (n d : ℕ) : ℤ :=
  let e0 : ℤ := (bitLen n n : ℤ) - (bitLen d d : ℤ)
  let ge : Bool :=
    if 0 ≤ e0 then decide (d * 2 ^ e0.toNat ≤ n) else decide (d ≤ n * 2 ^ (-e0).toNat)
  if ge then e0 else e0 - 1

/-- The binary64 value nearest to `q`, ties to even: 53 significant bits,
least exponent `-1074`, an infinity from `2^1024` on. -/
def roundDouble (q : ℚ) : JSNum :=
  if q = 0 then JSNum.fin 0
  else
    let n := q.num.natAbs
    let d := q.den
    let e := max (binExp n d - 52) (-1074)
    let m :=
      if 0 ≤ e then roundHalfEven n (d * 2 ^ e.toNat) else roundHalfEven (n * 2 ^ (-e).toNat) d
    if 0 ≤ e ∧ 2 ^ 1024 ≤ m * 2 ^ e.toNat then JSNum.inf (decide (q < 0))
    else
      let v : ℚ :=
        if 0 ≤ e then ((m * 2 ^ e.toNat : ℕ) : ℚ) else (m : ℚ) / ((2 ^ (-e).toNat : ℕ) : ℚ)
      JSNum.fin (if q < 0 then -v else v)

/-- Equality of two rationals, decided on numerator and denominator. -/
def ratBeq (a b : ℚ) : Bool := decide (a.num = b.num) && decide (a.den = b.den)

namespace JSNum

/-- Equality of two numbers as a Boolean test. -/
def beq : JSNum → JSNum → Bool
  | nan, nan => true
  | fin a, fin b => ratBeq a b
  | inf s, inf t => s == t
  | _, _ => false

/-- A numeric literal of the source text. -/
def lit (q : ℚ) : JSNum := roundDouble q

/-- The comparison `a > b`: false as soon as one side is NaN. -/
def gt : JSNum → JSNum → Bool
  | nan, _ => false
  | _, nan => false
  | fin a, fin b => decide (b < a)
  | fin _, inf negative => negative
  | inf negative, fin _ => !negative
  | inf s, inf t => !s && t

/-- The sum `a + b`. -/
def add : JSNum → JSNum → JSNum
  | nan, _ => nan
  | _, nan => nan
  | fin a, fin b => roundDouble (a + b)
  | fin _, inf t => inf t
  | inf s, fin _ => inf s
  | inf s, inf t => if s = t then inf s else nan

/-- The product `a * b`. -/
def mul : JSNum → JSNum → JSNum
  | nan, _ => nan
  | _, nan => nan
  | fin a, fin b => roundDouble (a * b)
  | fin a, inf t => if a = 0 then nan else inf (xor (decide (a < 0)) t)
  | inf s, fin b => if b = 0 then nan else inf (xor s (decide (b < 0)))
  | inf s, inf t => inf (xor s t)

/-- The quotient `a / 100`. -/
def div100 : JSNum → JSNum
  | nan => nan
  | fin a => roundDouble (a / 100)
  | inf s => inf s

end JSNum

/-- A number that is not NaN: what `x || 0` leaves of a number. -/
inductive Amount where
  | fin (q : ℚ)
  | inf (negative : Bool)
  deriving DecidableEq, Repr

/-- The expression `x || 0` on a number: NaN and zero are falsy. -/
def JSNum.orZero : JSNum → Amount
  | JSNum.nan => Amount.fin 0
  | JSNum.fin q => Amount.fin q
  | JSNum.inf s => Amount.inf s

/-- The number of decimal digits of `n`, with `fuel` at least that number. -/
def decLen : ℕ → ℕ → ℕ
  | 0, _ => 0
  | fuel + 1, n => if n = 0 then 0 else decLen fuel (n / 10) + 1

/-- The decimal exponent of `n / d` for positive `n` and `d`: the integer
`e` with `10^e ≤ n / d < 10^(e+1)`. -/
def decExp (n d : ℕ) : ℤ :=
  let e0 : ℤ := (decLen n n : ℤ) - (decLen d d : ℤ)
  let ge : Bool :=
    if 0 ≤ e0 then decide (d * 10 ^ e0.toNat ≤ n) else decide (d ≤ n * 10 ^ (-e0).toNat)
  if ge then e0 else e0 - 1

/-- The value `s * 10^p`. -/
def decValue (s : ℕ) (p : ℤ) : ℚ :=
  if 0 ≤ p then ((s * 10 ^ p.toNat : ℕ) : ℚ) else (s : ℚ) / ((10 ^ (-p).toNat : ℕ) : ℚ)

/-- The decimal of `k` significant digits that reads back as the positive
number `a`, the nearer one when two do; `none` when no such decimal does. -/
def decimalWith (a : ℚ) (k : ℕ) : Option ℚ :=
  let p : ℤ := decExp a.num.natAbs a.den - (k : ℤ) + 1
  let lo : ℕ :=
    if 0 ≤ p then a.num.natAbs / (a.den * 10 ^ p.toNat)
    else a.num.natAbs * 10 ^ (-p).toNat / a.den
  let vlo := decValue lo p
  let vhi := decValue (lo + 1) p
  let oklo := (roundDouble vlo).beq (JSNum.fin a)
  let okhi := (roundDouble vhi).beq (JSNum.fin a)
  if oklo && okhi then (if a - vlo ≤ vhi - a then some vlo else some vhi)
  else if oklo then some vlo
  else if okhi then some vhi
  else none

/-- The value of the decimal text `Number.prototype.toString` gives a
finite number: the shortest decimal, of at most 17 digits, that reads back
as the same number. -/
def toStringValue (q : ℚ) : ℚ :=
  if q = 0 then 0
  else
    let a := |q|
    let v := ((List.range 17).findSome? (fun i => decimalWith a (i + 1))).getD a
    if q < 0 then -v else v

/-- The value of `x.toFixed(digits)` for a finite `x`: below `10^21` the
nearest multiple of `10^-digits`, ties away from zero; from `10^21` on the
number itself. -/
def toFixed (digits : ℕ) (q : ℚ) : ℚ :=
  if (10 : ℚ) ^ 21 ≤ |q| then q
  else
    let n : ℤ := Rat.floor (|q| * (10 : ℚ) ^ digits + 1 / 2)
    if q < 0 then -((n : ℚ) / (10 : ℚ) ^ digits) else (n : ℚ) / (10 : ℚ) ^ digits

/-! ## JSON fields and strings -/

/-- A loosely typed JSON field.  `absent` stands for undefined, null and the
empty string (all falsy, all read as NaN by `parseFloat`); `text x` is a
non-empty string whose numeric reading is `x`. -/
inductive JSVal where
  | absent
  | num (x : JSNum)
  | text (x : JSNum)
  deriving DecidableEq, Repr

namespace JSVal

/-- JavaScript truthiness of a field. -/
def truthy : JSVal → Bool
  | absent => false
  | num JSNum.nan => false
  | num (JSNum.fin q) => decide (q ≠ 0)
  | num (JSNum.inf _) => true
  | text _ => true

/-- The expression `v || 0`. -/
def orZero (v : JSVal) : JSVal :=
  if v.truthy then v else num (JSNum.fin 0)

/-- The call `parseFloat(v)`. -/
def parseFloat : JSVal → JSNum
  | absent => JSNum.nan
  | num x => x
  | text x => x

/-- Numeric coercion of an operand of `>` or `*`. -/
def toNumber : JSVal → JSNum
  | absent => JSNum.nan
  | num x => x
  | text x => x

end JSVal

/-- The string `x.toFixed(6)` as a field value: the text of NaN and of an
infinity read back as themselves, the text of a finite number reads back as
the double nearest to its decimal. -/
def toFixed6 : JSNum → JSVal
  | JSNum.nan => JSVal.text JSNum.nan
  | JSNum.inf s => JSVal.text (JSNum.inf s)
  | JSNum.fin q => JSVal.text (roundDouble (toFixed 6 q))

/-- The ASCII lower-case map. -/
def asciiLower (s : String) : String := ⟨s.data.map Char.toLower⟩

/-- The ASCII upper-case map. -/
def asciiUpper (s : String) : String := ⟨s.data.map Char.toUpper⟩

/-- The string holds ASCII characters only. -/
def isAscii (s : String) : Bool := s.data.all (fun c => decide (c.toNat < 128))

/-- The case maps of the host: `String.prototype.toLowerCase` and
`String.prototype.toUpperCase`.  They are Unicode-aware; on ASCII text they
are the ASCII maps, which is all that is fixed here. -/
structure Runtime where
  toLowerCase : String → String
  toUpperCase : String → String
  lower_ascii : ∀ s : String, isAscii s = true → toLowerCase s = asciiLower s
  upper_ascii : ∀ s : String, isAscii s = true → toUpperCase s = asciiUpper s

/-- `String.prototype.includes`: `k` occurs as a substring of `text`. -/
def includes (text k : String) : Bool :=
  text.data.tails.any (fun t => k.data.isPrefixOf t)

/-- The final index of `Array.prototype.slice(0, end)` on an array of
length `len`: `end` is truncated toward zero (NaN is 0) and a negative `end`
counts from the back. -/
def sliceEnd (len : ℕ) : JSNum → ℕ
  | JSNum.nan => 0
  | JSNum.inf negative => if negative then 0 else len
  | JSNum.fin q =>
    let rel : ℤ := if 0 ≤ q then Rat.floor q else Rat.ceil q
    (if rel < 0 then max ((len : ℤ) + rel) 0 else min rel (len : ℤ)).toNat

/-- `Array.prototype.slice(0, end)`. -/
def slice0 {α : Type} (xs : List α) (stop : JSNum) : List α :=
  xs.take (sliceEnd xs.length stop)

/-! ## Market scanner -/

/-- A trading-pair record of the market-data response, restricted to the
fields `scanMemes` reads. -/
structure Pair where
  chainId : String
  address : String
  symbol : String
  name : String
  priceUsd : String
  liquidityUsd : JSVal
  volumeH24 : JSVal
  priceChangeH24 : JSVal
  buysH24 : JSVal
  sellsH24 : JSVal
  deriving DecidableEq, Repr

/-- The recommendation attached to a candidate. -/
inductive Rec where
  | STRONG_BUY
  | BUY
  | WATCH
  | PASS
  deriving DecidableEq, Repr

/-- The object returned for one scored pair (lines 149-159). -/
structure Candidate where
  address : String
  symbol : String
  price : String
  change24h : JSNum
  volume24h : JSNum
  liquidity : JSNum
  score : ℕ
  factors : List String
  recommendation : Rec
  deriving DecidableEq, Repr

/-- The keyword list of the filter (line 130). -/
def keywords : List String :=
  ["meme", "pepe", "doge", "shib", "moon", "rocket", "elon", "wojak", "chad", "based"]

/-- The filter predicate of lines 129-133. -/
def keepPair (rt : Runtime) (p : Pair) : Bool :=
  let text := rt.toLowerCase (p.symbol ++ " " ++ p.name)
  decide (p.chainId = "base")
    && (p.liquidityUsd.parseFloat.gt (JSNum.fin 10000))
    && keywords.any (fun k => includes text k)

/-- The running `score` and `factors` after the four rule statements of
lines 142-147, executed in order. -/
def scoreRules (vol liq change buys sells : JSNum) : ℕ × List String :=
  let s0 : ℕ × List String := (0, [])
  let s1 := if vol.gt (JSNum.fin 100000) then (s0.1 + 25, s0.2 ++ ["High volume"]) else s0
  let s2 :=
    if change.gt (JSNum.fin 50) then (s1.1 + 30, s1.2 ++ ["Strong pump"])
    else if change.gt (JSNum.fin 20) then (s1.1 + 20, s1.2 ++ ["Uptrend"])
    else s1
  let s3 :=
    if buys.gt (sells.mul (JSNum.fin (3 / 2))) then (s2.1 + 25, s2.2 ++ ["Buy pressure"])
    else s2
  let s4 := if liq.gt (JSNum.fin 50000) then (s3.1 + 20, s3.2 ++ ["Good liq"]) else s3
  s4

/-- The ternary chain of line 158, applied to the unclamped score. -/
def recOf (score : ℕ) : Rec :=
  if score > 80 then Rec.STRONG_BUY
  else if score > 60 then Rec.BUY
  else if score > 40 then Rec.WATCH
  else Rec.PASS

/-- The parsed volume of a pair (line 136). -/
def Pair.vol (p : Pair) : JSNum := p.volumeH24.orZero.parseFloat

/-- The parsed liquidity of a pair (line 137). -/
def Pair.liq (p : Pair) : JSNum := p.liquidityUsd.orZero.parseFloat

/-- The parsed 24h change of a pair (line 138). -/
def Pair.change (p : Pair) : JSNum := p.priceChangeH24.orZero.parseFloat

/-- The 24h buy count of a pair as a number (line 139). -/
def Pair.buys (p : Pair) : JSNum := p.buysH24.orZero.toNumber

/-- The 24h sell count of a pair as a number (line 140). -/
def Pair.sells (p : Pair) : JSNum := p.sellsH24.orZero.toNumber

/-- The body of the `map` callback (lines 135-160). -/
def scorePair (p : Pair) : Candidate :=
  let r := scoreRules p.vol p.liq p.change p.buys p.sells
  { address := p.address
    symbol := p.symbol
    price := p.priceUsd
    change24h := p.change
    volume24h := p.vol
    liquidity := p.liq
    score := min r.1 100
    factors := r.2
    recommendation := recOf r.1 }

/-- The order a descending sort by score puts `a` no later than `b`. -/
def scoreGe (a b : Candidate) : Prop := b.score ≤ a.score

instance : DecidableRel scoreGe := fun a b => inferInstanceAs (Decidable (b.score ≤ a.score))

instance : IsTotal Candidate scoreGe := ⟨fun a b => Nat.le_total b.score a.score⟩

instance : IsTrans Candidate scoreGe := ⟨fun _ _ _ hab hbc => Nat.le_trans hbc hab⟩

/-- The function `scanMemes(limit)`, given the pair list of the market-data
response (`none` when the fetch or the parse throws). The sort is stable. -/
def scanMemes (rt : Runtime) (limit : JSNum) (response : Option (List Pair)) :
    List Candidate :=
  match response with
  | none => []
  | some pairs =>
    slice0 (((pairs.filter (keepPair rt)).map scorePair).insertionSort scoreGe) limit

/-- The `find` predicate of `analyzeToken` (line 169). -/
def matchesQuery (rt : Runtime) (query : String) (t : Candidate) : Bool :=
  decide (rt.toLowerCase t.symbol = rt.toLowerCase query)
    || decide (rt.toLowerCase t.address = rt.toLowerCase query)

/-- The function `analyzeToken(query)`; `none` is the undefined result that
every caller turns into the not-found object. -/
def analyzeToken (rt : Runtime) (query : String) (response : Option (List Pair)) :
    Option Candidate :=
  (scanMemes rt (JSNum.fin 50) response).find? (matchesQuery rt query)

/-! ## Whale tracker -/

/-- A transfer record of the chain-data response (fields `from`, `to`,
`value`). -/
structure Transfer where
  from_ : String
  to_ : String
  value : JSVal
  deriving DecidableEq, Repr

/-- The signal attached to a tracked address. -/
inductive Signal where
  | BUY
  | SELL
  | HOLD
  deriving DecidableEq, Repr

/-- The object returned by `trackWhale` (lines 190-197). -/
structure WhaleSignal where
  address : String
  signal : Signal
  confidence : ℕ
  isAccumulating : Bool
  buys : ℕ
  sells : ℕ
  deriving DecidableEq, Repr

/-- The window `txs.slice(0,20)` (line 182). -/
def recentOf (txs : List Transfer) : List Transfer := txs.take 20

/-- The inbound transfers of the window (line 183). -/
def buysOf (rt : Runtime) (address : String) (txs : List Transfer) : List Transfer :=
  (recentOf txs).filter (fun t => decide (rt.toLowerCase t.to_ = rt.toLowerCase address))

/-- The outbound transfers of the window (line 184). -/
def sellsOf (rt : Runtime) (address : String) (txs : List Transfer) : List Transfer :=
  (recentOf txs).filter (fun t => decide (rt.toLowerCase t.from_ = rt.toLowerCase address))

/-- The test `buys.length > sells.length*1.5` (line 186). -/
def isAccum (buys sells : ℕ) : Bool :=
  (JSNum.fin (buys : ℚ)).gt ((JSNum.fin (sells : ℚ)).mul (JSNum.fin (3 / 2)))

/-- The test `sells.length > buys.length*2` (line 192). -/
def sellDominates (buys sells : ℕ) : Bool :=
  (JSNum.fin (sells : ℚ)).gt ((JSNum.fin (buys : ℚ)).mul (JSNum.fin 2))

/-- The reduction `buys.reduce((a,b)=>a+parseFloat(b.value),0)` (line 188):
double additions, left to right. -/
def inboundSum (rt : Runtime) (address : String) (txs : List Transfer) : JSNum :=
  (buysOf rt address txs).foldl (fun a b => a.add b.value.parseFloat) (JSNum.fin 0)

/-- The ternary chain of line 192. -/
def signalOf (buys sells : ℕ) : Signal :=
  if isAccum buys sells then Signal.BUY
  else if sellDominates buys sells then Signal.SELL
  else Signal.HOLD

/-- The ternary chain of line 192 with its two tests taken in the other
order. -/
def signalOfSwapped (buys sells : ℕ) : Signal :=
  if sellDominates buys sells then Signal.SELL
  else if isAccum buys sells then Signal.BUY
  else Signal.HOLD

/-- The unclamped `score` of lines 187-188. -/
def whaleScore (accum : Bool) (inbound : JSNum) : ℕ :=
  let score : ℕ := if accum then 40 else 0
  if inbound.gt (JSNum.fin 1000) then score + 30 else score

/-- The function `trackWhale(address)`, given the transfer list of the
chain-data response (`none` when the fetch, the parse or a later step
throws); the result `none` is the source's `null`. -/
def trackWhale (rt : Runtime) (address : String) (response : Option (List Transfer)) :
    Option WhaleSignal :=
  match response with
  | none => none
  | some txs =>
    if txs.length = 0 then none
    else
      let buys := buysOf rt address txs
      let sells := sellsOf rt address txs
      let accum := isAccum buys.length sells.length
      some
        { address := address
          signal := signalOf buys.length sells.length
          confidence := min (whaleScore accum (inboundSum rt address txs)) 100
          isAccumulating := accum
          buys := buys.length
          sells := sells.length }

/-- The watchlist `CONFIG.WHALES` (lines 62-65). -/
def WHALES : List String :=
  ["0x742d35Cc6634C0532925a3b844Bc9e7595f0bEb", "0x8ba1f109551bD432803012645Hac136c82C3e8C9"]

/-- The order a descending sort by confidence puts `a` no later than `b`. -/
def confGe (a b : WhaleSignal) : Prop := b.confidence ≤ a.confidence

instance : DecidableRel confGe :=
  fun a b => inferInstanceAs (Decidable (b.confidence ≤ a.confidence))

/-- The loop of `scanWhales` (lines 204-208) over a list of addresses;
`chain addr` is the response the chain-data source gives for `addr`. -/
def collectWhales (rt : Runtime) (chain : String → Option (List Transfer))
    (addrs : List String) : List WhaleSignal :=
  addrs.foldl
    (fun results addr =>
      match trackWhale rt addr (chain addr) with
      | some data => if data.confidence > 50 then results ++ [data] else results
      | none => results)
    []

/-- The function `scanWhales()`. -/
def scanWhales (rt : Runtime) (chain : String → Option (List Transfer)) : List WhaleSignal :=
  (collectWhales rt chain WHALES).insertionSort confGe

/-! ## Trade executor and ledger -/

/-- A row of the `positions` relation (`token` is its uniqueness key). -/
structure Position where
  token : String
  symbol : String
  entry : ℚ
  amount : ℚ
  deriving DecidableEq, Repr

/-- A row of the `trades` relation. -/
structure TradeRow where
  trade_id : String
  token : String
  symbol : String
  type : String
  amount : ℚ
  price : ℚ
  tx : String
  deriving DecidableEq, Repr

/-- The ledger store: both relations, `trades` in insertion order. -/
structure Ledger where
  positions : List Position
  trades : List TradeRow
  deriving DecidableEq, Repr

/-- The `trade` object of `execTrade` (lines 215-224); `price` is the value
of its decimal string. -/
structure Trade where
  id : String
  token : String
  symbol : String
  type : String
  amount : Amount
  price : ℚ
  tx : String
  deriving DecidableEq, Repr

/-- The `params` argument of `execTrade`; `none` is an undefined field. -/
structure TradeParams where
  token : Option String
  symbol : Option String
  amount : JSVal
  type : Option String
  deriving DecidableEq, Repr

/-- The three `Math.random()` draws of one `execTrade` call: the text
`Math.random().toString(36)`, the value of the string
`(Math.random()*0.001).toFixed(10)`, and the text
`Math.random().toString(16)`. -/
structure Entropy where
  id36 : String
  price : ℚ
  tx16 : String
  deriving DecidableEq, Repr

/-- The expression `s || d` on an optional string: undefined and the empty
string are falsy. -/
def orDefault (s : Option String) (d : String) : String :=
  match s with
  | none => d
  | some v => if v = "" then d else v

/-- `String.prototype.substring(start)`. -/
def substringFrom (start : ℕ) (s : String) : String := ⟨s.data.drop start⟩

/-- `String.prototype.substr(start, len)`. -/
def substr (start len : ℕ) (s : String) : String := ⟨(s.data.drop start).take len⟩

/-- `String.prototype.slice(0, stop)`. -/
def sliceTo (stop : ℕ) (s : String) : String := ⟨s.data.take stop⟩

/-- The `trade` object built on lines 215-224. -/
def mkTrade (rt : Runtime) (params : TradeParams) (e : Entropy) : Trade :=
  { id := substringFrom 7 e.id36
    token := orDefault params.token "0x0"
    symbol := orDefault params.symbol "UNKNOWN"
    type := rt.toUpperCase (params.type.getD "BUY")
    amount := params.amount.parseFloat.orZero
    price := e.price
    tx := "0x" ++ substr 2 40 e.tx16 }

/-- The text holds the character of code 0, which no text value of the store
may hold. -/
def hasNul (s : String) : Bool := s.data.any (fun c => decide (c = Char.ofNat 0))

/-- Assignment to a `VARCHAR(n)` column: a text holding the character of
code 0 is rejected; a string longer than `n` characters is rejected unless the
excess is blanks, which are cut off. -/
def pgVarchar (n : ℕ) (s : String) : Except String String :=
  if hasNul s then Except.error "invalid byte sequence for encoding UTF8: 0x00"
  else if s.length ≤ n then Except.ok s
  else if (s.data.drop n).all (fun c => decide (c = ' ')) then Except.ok ⟨s.data.take n⟩
  else Except.error "value too long for type character varying"

/-- Rounding to ten decimals, half away from zero. -/
def pgRound10 (x : ℚ) : ℚ :=
  let n : ℤ := Rat.floor (|x| * (10 : ℚ) ^ 10 + 1 / 2)
  if x < 0 then -((n : ℚ) / (10 : ℚ) ^ 10) else (n : ℚ) / (10 : ℚ) ^ 10

/-- Assignment to a `DECIMAL(20,10)` column: the value is rounded to ten
decimals and rejected when ten digits before the point do not hold it. -/
def pgNumeric (x : ℚ) : Except String ℚ :=
  if (10 : ℚ) ^ 10 ≤ |pgRound10 x| then Except.error "numeric field overflow"
  else Except.ok (pgRound10 x)

/-- The numeric value of a number parameter: the driver sends the text of
`toString`, and the text of an infinity is no value of a `DECIMAL(20,10)`. -/
def Amount.param : Amount → Except String ℚ
  | Amount.fin q => Except.ok (toStringValue q)
  | Amount.inf _ => Except.error "numeric field overflow"

/-- The row of `INSERT INTO trades(...) VALUES($1,...,$7)` (lines 227-230),
or the error of the first column that rejects its value. -/
def tradeRow (trade : Trade) : Except String TradeRow := do
  let id ← pgVarchar 50 trade.id
  let token ← pgVarchar 42 trade.token
  let symbol ← pgVarchar 20 trade.symbol
  let type ← pgVarchar 10 trade.type
  let sent ← trade.amount.param
  let amount ← pgNumeric sent
  let price ← pgNumeric trade.price
  let tx ← pgVarchar 66 trade.tx
  pure { trade_id := id, token := token, symbol := symbol, type := type, amount := amount,
         price := price, tx := tx }

/-- The row `VALUES($1,$2,$3,$4)` proposed to `positions` (line 234). -/
def positionRow (trade : Trade) : Except String Position := do
  let token ← pgVarchar 42 trade.token
  let symbol ← pgVarchar 20 trade.symbol
  let entry ← pgNumeric trade.price
  let sent ← trade.amount.param
  let amount ← pgNumeric sent
  pure { token := token, symbol := symbol, entry := entry, amount := amount }

/-- The update `SET amount=positions.amount+$4` on the rows of `token`: the
sum is assigned to the `DECIMAL(20,10)` column. -/
def bumpAmount (token : String) (sent : ℚ) : List Position → Except String (List Position)
  | [] => Except.ok []
  | p :: ps =>
    if p.token = token then
      (pgNumeric (p.amount + sent)).bind (fun amount =>
        (bumpAmount token sent ps).map (fun rest => { p with amount := amount } :: rest))
    else
      (bumpAmount token sent ps).map (fun rest => p :: rest)

/-- The statement `INSERT INTO positions ... ON CONFLICT(token) DO UPDATE SET
amount=positions.amount+$4` (line 234). -/
def upsertPosition (ps : List Position) (trade : Trade) : Except String (List Position) :=
  match positionRow trade, trade.amount.param with
  | Except.ok row, Except.ok sent =>
    if ps.any (fun p => decide (p.token = row.token)) then bumpAmount row.token sent ps
    else Except.ok (ps ++ [row])
  | Except.error m, _ => Except.error m
  | _, Except.error m => Except.error m

/-- The statement `DELETE FROM positions WHERE token=$1` (line 238). -/
def deletePosition (ps : List Position) (token : String) : List Position :=
  ps.filter (fun p => decide (p.token ≠ token))

/-- The object `{success:true, trade}` returned by `execTrade`. -/
structure TradeResult where
  success : Bool
  trade : Trade
  deriving DecidableEq, Repr

/-- The store writes of lines 226-240 for one trade: the store they leave
and the error of the statement that was rejected, if one was.  Nothing is
rolled back: a rejected second statement leaves the first one written. -/
def applyTrade (db : Option Ledger) (trade : Trade) : Option Ledger × Option String :=
  match db with
  | none => (none, none)
  | some l =>
    match tradeRow trade with
    | Except.error m => (some l, some m)
    | Except.ok row =>
      if trade.type = "BUY" then
        match upsertPosition l.positions trade with
        | Except.error m => (some { positions := l.positions, trades := l.trades ++ [row] }, some m)
        | Except.ok ps => (some { positions := ps, trades := l.trades ++ [row] }, none)
      else
        (some { positions := deletePosition l.positions trade.token,
                trades := l.trades ++ [row] }, none)

/-- The function `execTrade(params)`: the store after the call and either
the returned object or the error the call throws. -/
def execTrade (rt : Runtime) (db : Option Ledger) (params : TradeParams) (e : Entropy) :
    Option Ledger × Except String TradeResult :=
  let trade := mkTrade rt params e
  match applyTrade db trade with
  | (db₁, some m) => (db₁, Except.error m)
  | (db₁, none) => (db₁, Except.ok { success := true, trade := trade })

/-- The sizing expression `0.1*pct/100` of line 249. -/
def copyNotional (pct : JSNum) : JSNum :=
  ((JSNum.lit (1 / 10)).mul pct).div100

/-- The parameter object `copyTrade` hands to `execTrade` (line 249);
`hex16` is the text `Math.random().toString(16)` of the token draw. -/
def copyParams (target : String) (pct : JSNum) (hex16 : String) : TradeParams :=
  { token := some ("0x" ++ substr 2 40 hex16)
    symbol := some ("COPY_" ++ sliceTo 6 target)
    amount := toFixed6 (copyNotional pct)
    type := some "BUY" }

/-- What `copyTrade` returns: the object `{success:false, error}` or the
object returned by `execTrade`. -/
inductive CopyResult where
  | failure (error : String)
  | done (result : TradeResult)
  deriving DecidableEq, Repr

/-- The function `copyTrade(target, pct)`; `pct = none` is an omitted
argument, `response` is what the chain-data source answers for `target`.
The result is the store after the call and either the returned object or
the error thrown by `execTrade`. -/
def copyTrade (rt : Runtime) (db : Option Ledger) (target : String) (pct : Option JSNum)
    (response : Option (List Transfer)) (hex16 : String) (e : Entropy) :
    Option Ledger × Except String CopyResult :=
  match trackWhale rt target response with
  | none => (db, Except.ok (CopyResult.failure "No buy signal"))
  | some whale =>
    if whale.signal ≠ Signal.BUY then (db, Except.ok (CopyResult.failure "No buy signal"))
    else
      match execTrade rt db (copyParams target (pct.getD (JSNum.fin 10)) hex16) e with
      | (db₁, Except.error m) => (db₁, Except.error m)
      | (db₁, Except.ok r) => (db₁, Except.ok (CopyResult.done r))

/-- The filter of the whale callback (line 336). -/
def strongSignals (signals : List WhaleSignal) : List WhaleSignal :=
  signals.filter (fun s => decide (s.confidence > 80) && decide (s.signal = Signal.BUY))

/-- The whale callback of `startCrons` (lines 333-341): the store after
one run and the list of `copyTrade` calls it issued.  `chain` answers the
watchlist scan, `again` answers the fetch made inside `copyTrade`. -/
def whaleCron (rt : Runtime) (db : Option Ledger)
    (chain again : String → Option (List Transfer)) (hex16 : String) (e : Entropy) :
    Option Ledger × List (String × JSNum) :=
  match strongSignals (scanWhales rt chain) with
  | [] => (db, [])
  | s :: _ =>
    ((copyTrade rt db s.address (some (JSNum.fin 5)) (again s.address) hex16 e).1,
      [(s.address, JSNum.fin 5)])

/-- A sequence of `execTrade` calls, run in order on a store; a call that
throws leaves what it wrote and the next call runs. -/
def runTrades (rt : Runtime) (db : Option Ledger) (calls : List (TradeParams × Entropy)) :
    Option Ledger :=
  calls.foldl (fun d c => (execTrade rt d c.1 c.2).1) db

/-- The empty ledger. -/
def Ledger.empty : Ledger := { positions := [], trades := [] }

/-! ## Specification-side definitions -/

/-- The number of TradeRecords the store holds (none when no store is
connected). -/
def tradeCount (db : Option Ledger) : ℕ :=
  match db with
  | none => 0
  | some l => l.trades.length

/-- The number a numeric field of a record stands for: an absent field, and
a number that is zero or not a number, count as 0. -/
def fieldNumber : JSVal → JSNum
  | JSVal.absent => JSNum.fin 0
  | JSVal.num JSNum.nan => JSNum.fin 0
  | JSVal.num x => x
  | JSVal.text x => x

/-- The sum of the weights of the rules a record triggers, as the
specification words it, read off the fields of the record: volume above
100000 gives 25; change above 50 gives 30, else change above 20 gives 20;
buys above 1.5 times sells gives 25; liquidity above 50000 gives 20. -/
def ruleWeightSum (p : Pair) : ℕ :=
  (if (fieldNumber p.volumeH24).gt (JSNum.fin 100000) then 25 else 0)
    + (if (fieldNumber p.priceChangeH24).gt (JSNum.fin 50) then 30
        else if (fieldNumber p.priceChangeH24).gt (JSNum.fin 20) then 20 else 0)
    + (if (fieldNumber p.buysH24).gt ((fieldNumber p.sellsH24).mul (JSNum.fin (3 / 2)))
        then 25 else 0)
    + (if (fieldNumber p.liquidityUsd).gt (JSNum.fin 50000) then 20 else 0)

/-- The value has at most ten decimals. -/
def isDecimal10 (x : ℚ) : Prop := ∃ k : ℤ, x = (k : ℚ) / (10 : ℚ) ^ 10

/-- The text is one a `VARCHAR(n)` column holds as it is: at most `n`
characters, none of them the character of code 0. -/
@[reducible] def fitsVarchar (n : ℕ) (s : String) : Prop := s.length ≤ n ∧ hasNul s = false

/-- The strings of a trade fit the `VARCHAR` columns of lines 91-114 and its
price is a value a `DECIMAL(20,10)` column holds as it is. -/
def fitsColumns (t : Trade) : Prop :=
  fitsVarchar 50 t.id ∧ fitsVarchar 42 t.token ∧ fitsVarchar 20 t.symbol
    ∧ fitsVarchar 10 t.type ∧ fitsVarchar 66 t.tx ∧ isDecimal10 t.price
    ∧ |t.price| < (10 : ℚ) ^ 10

/-! ## Sample inputs -/

/-- The runtime whose case maps are the ASCII ones. -/
def asciiRuntime : Runtime :=
  { toLowerCase := asciiLower
    toUpperCase := asciiUpper
    lower_ascii := fun _ _ => rfl
    upper_ascii := fun _ _ => rfl }

/-- A kept pair that triggers every rule: score 100. -/
def pairHot : Pair :=
  { chainId := "base", address := "0xaaa1", symbol := "DOGEX", name := "Doge X",
    priceUsd := "0.5", liquidityUsd := JSVal.num (JSNum.fin 60000),
    volumeH24 := JSVal.num (JSNum.fin 200000), priceChangeH24 := JSVal.num (JSNum.fin 75),
    buysH24 := JSVal.num (JSNum.fin 40), sellsH24 := JSVal.num (JSNum.fin 10) }

/-- A kept pair with symbol PEPE that triggers no rule: score 0. -/
def pairPepe : Pair :=
  { chainId := "base", address := "0xbbb2", symbol := "PEPE", name := "Pepe",
    priceUsd := "0.01", liquidityUsd := JSVal.num (JSNum.fin 20000),
    volumeH24 := JSVal.absent, priceChangeH24 := JSVal.num (JSNum.fin 5),
    buysH24 := JSVal.absent, sellsH24 := JSVal.absent }

/-- A copy of `pairHot` whose address field reads `PePe`. -/
def pairAlias : Pair := { pairHot with address := "PePe" }

/-- A response of 51 kept pairs: fifty of score 100, then `pairPepe`. -/
def pairsFiftyOne : List Pair := List.replicate 50 pairHot ++ [pairPepe]

/-- A pair whose counts are so large that the double product `sells*1.5`
rounds up to `buys`. -/
def pairHuge : Pair :=
  { pairPepe with
    buysH24 := JSVal.num (JSNum.fin 13510798882111484)
    sellsH24 := JSVal.num (JSNum.fin 9007199254740989) }

/-- A one-transfer history: 1000 units sent to the address `0xabc`. -/
def txsThousand : List Transfer :=
  [{ from_ := "0xdef", to_ := "0xABC", value := JSVal.text (JSNum.fin 1000) }]

/-- Two inbound transfers, of 1000 units and of the amount written `1e-20`:
their exact sum is above 1000, their double sum is 1000. -/
def txsAbsorb : List Transfer :=
  [{ from_ := "0xdef", to_ := "0xabc", value := JSVal.text (JSNum.fin 1000) },
   { from_ := "0xdef", to_ := "0xabc",
     value := JSVal.text (JSNum.lit (1 / 100000000000000000000)) }]

/-- A one-transfer history: 2500 units sent to the address `0xabc`. -/
def txsLarge : List Transfer :=
  [{ from_ := "0xdef", to_ := "0xABC", value := JSVal.text (JSNum.fin 2500) }]

/-- A one-transfer history: 2500 units sent away from the address `0xabc`. -/
def txsOut : List Transfer :=
  [{ from_ := "0xabc", to_ := "0xdef", value := JSVal.text (JSNum.fin 2500) }]

/-- Twenty inbound transfers followed by forty outbound ones. -/
def txsSixty : List Transfer :=
  List.replicate 20 { from_ := "0xdef", to_ := "0xabc", value := JSVal.text (JSNum.fin 1) }
    ++ List.replicate 40 { from_ := "0xabc", to_ := "0xdef", value := JSVal.text (JSNum.fin 1) }

/-- A chain-data source that reports, for every address, one inbound
transfer of 2500 units. -/
def chainInbound (addr : String) : Option (List Transfer) :=
  some [{ from_ := "0xdef", to_ := addr, value := JSVal.text (JSNum.fin 2500) }]

/-- Random draws of a first call. -/
def entropyA : Entropy := { id36 := "0.k3x9q2m7p", price := 1 / 4000, tx16 := "0.feed01c4a8" }

/-- Random draws of a second call. -/
def entropyB : Entropy := { id36 := "0.q7m2h5t1w", price := 1 / 8000, tx16 := "0.feed02b7d3" }

/-- A request to buy 100 units of the token `0xT0`. -/
def paramsBuy : TradeParams :=
  { token := some "0xT0", symbol := some "TKN", amount := JSVal.num (JSNum.fin 100),
    type := some "buy" }

/-- A request to sell 30 units of the token `0xT0`. -/
def paramsSell : TradeParams :=
  { token := some "0xT0", symbol := some "TKN", amount := JSVal.num (JSNum.fin 30),
    type := some "sell" }

/-- A request with the amount -5 and no type, which defaults to BUY. -/
def paramsBuyNegative : TradeParams :=
  { token := some "0xT0", symbol := some "TKN", amount := JSVal.num (JSNum.fin (-5)),
    type := none }

/-- A request to buy the amount written `5e-11`. -/
def paramsBuyTiny : TradeParams :=
  { token := some "0xT0", symbol := some "TKN",
    amount := JSVal.num (JSNum.lit (5 / 100000000000)), type := some "buy" }

/-- A request to buy 6000000000 units of the token `0xT0`. -/
def paramsBuyBig : TradeParams :=
  { token := some "0xT0", symbol := some "TKN", amount := JSVal.num (JSNum.fin 6000000000),
    type := some "buy" }

/-- A request to sell 10000000000 units of the token `0xT0`. -/
def paramsSellHuge : TradeParams :=
  { token := some "0xT0", symbol := some "TKN", amount := JSVal.num (JSNum.fin 10000000000),
    type := some "sell" }

/-- A request to sell 30 units of a token whose address has 43 characters. -/
def paramsSellLong : TradeParams :=
  { token := some "0x1234567890123456789012345678901234567890a", symbol := some "TKN",
    amount := JSVal.num (JSNum.fin 30), type := some "sell" }

/-- A ledger holding 100 units of `0xT0` and 7 units of `0xT1`. -/
def ledgerHeld : Ledger :=
  { positions :=
      [{ token := "0xT0", symbol := "TKN", entry := 1 / 4000, amount := 100 },
       { token := "0xT1", symbol := "OTH", entry := 1 / 2000, amount := 7 }]
    trades := [] }

/-! ## Helper lemmas: numbers -/

theorem eq_of_ratBeq {a b : ℚ} (h : ratBeq a b = true) : a = b := by
  simp only [ratBeq, Bool.and_eq_true, decide_eq_true_eq] at h
  exact Rat.ext h.1 h.2

theorem JSNum.eq_of_beq {a b : JSNum} (h : JSNum.beq a b = true) : a = b := by
  cases a <;> cases b <;> simp_all [JSNum.beq]
  exact eq_of_ratBeq h

theorem roundDouble_zero : roundDouble 0 = JSNum.fin 0 := by
  simp [roundDouble]

theorem pgRound10_nonneg (x : ℚ) (hx : 0 ≤ x) : 0 ≤ pgRound10 x := by
  unfold pgRound10
  have hfloor : (0 : ℤ) ≤ Rat.floor (|x| * (10 : ℚ) ^ 10 + 1 / 2) :=
    Rat.le_floor.mpr (by
      have : (0 : ℚ) ≤ |x| := abs_nonneg x
      push_cast
      positivity)
  simp only [if_neg (not_lt.mpr hx)]
  have : (0 : ℚ) ≤ ((Rat.floor (|x| * (10 : ℚ) ^ 10 + 1 / 2) : ℤ) : ℚ) := by exact_mod_cast hfloor
  positivity

theorem pgRound10_decimal (x : ℚ) (h : isDecimal10 x) : pgRound10 x = x := by
  obtain ⟨k, rfl⟩ := h
  have hP : (0 : ℚ) < (10 : ℚ) ^ 10 := by positivity
  have habs : |(k : ℚ) / (10 : ℚ) ^ 10| * (10 : ℚ) ^ 10 = ((|k| : ℤ) : ℚ) := by
    rw [abs_div, abs_of_pos hP, div_mul_cancel₀ _ (ne_of_gt hP)]
    push_cast
    rfl
  have hfl : Rat.floor (|(k : ℚ) / (10 : ℚ) ^ 10| * (10 : ℚ) ^ 10 + 1 / 2) = |k| := by
    rw [habs]
    have : ⌊((|k| : ℤ) : ℚ) + 1 / 2⌋ = |k| := by
      rw [Int.floor_eq_iff]
      constructor <;> linarith
    exact this
  unfold pgRound10
  simp only [hfl]
  by_cases hneg : (k : ℚ) / (10 : ℚ) ^ 10 < 0
  · have hk : k < 0 := by
      by_contra hk
      have : (0 : ℚ) ≤ (k : ℚ) := by exact_mod_cast not_lt.mp hk
      have : (0 : ℚ) ≤ (k : ℚ) / (10 : ℚ) ^ 10 := by positivity
      linarith
    rw [if_pos hneg, abs_of_neg hk]
    push_cast
    ring
  · have hk : 0 ≤ k := by
      by_contra hk
      have hk' : (k : ℚ) < 0 := by exact_mod_cast not_le.mp hk
      exact hneg (div_neg_of_neg_of_pos hk' hP)
    rw [if_neg hneg, abs_of_nonneg hk]

theorem pgNumeric_decimal (x : ℚ) (h : isDecimal10 x) (hx : |x| < (10 : ℚ) ^ 10) :
    pgNumeric x = Except.ok x := by
  unfold pgNumeric
  rw [pgRound10_decimal x h, if_neg (not_le.mpr hx)]

theorem pgNumeric_nonneg (x y : ℚ) (hx : 0 ≤ x) (h : pgNumeric x = Except.ok y) : 0 ≤ y := by
  unfold pgNumeric at h
  split_ifs at h
  injection h with h
  rw [← h]
  exact pgRound10_nonneg x hx

theorem decValue_nonneg (s : ℕ) (p : ℤ) : 0 ≤ decValue s p := by
  unfold decValue
  split_ifs <;> positivity

theorem decimalWith_nonneg (a : ℚ) (k : ℕ) (v : ℚ) (h : decimalWith a k = some v) : 0 ≤ v := by
  unfold decimalWith at h
  simp only at h
  split_ifs at h <;> injection h with h <;> rw [← h] <;> exact decValue_nonneg _ _

theorem toStringValue_nonneg (q : ℚ) (hq : 0 ≤ q) : 0 ≤ toStringValue q := by
  unfold toStringValue
  by_cases h0 : q = 0
  · simp [h0]
  · simp only [if_neg h0, if_neg (not_lt.mpr hq)]
    cases hfind : (List.range 17).findSome? (fun i => decimalWith |q| (i + 1)) with
    | none => simp
    | some v =>
      obtain ⟨i, _, hi⟩ := List.exists_of_findSome?_eq_some hfind
      simpa using decimalWith_nonneg _ _ _ hi

theorem pgVarchar_fits (n : ℕ) (s : String) (h : fitsVarchar n s) :
    pgVarchar n s = Except.ok s := by
  simp [pgVarchar, h.1, h.2]

/-! ## Exactness of `roundDouble` on small dyadic numbers -/

theorem bitLen_zero (fuel : ℕ) : bitLen fuel 0 = 0 := by
  cases fuel <;> simp [bitLen]

theorem bitLen_spec : ∀ (fuel n : ℕ), n < 2 ^ fuel →
    n < 2 ^ bitLen fuel n ∧ (0 < n → 2 ^ (bitLen fuel n - 1) ≤ n) := by
  intro fuel
  induction fuel with
  | zero =>
    intro n hn
    have h0 : n = 0 := by omega
    subst h0
    simp [bitLen]
  | succ fuel ih =>
    intro n hn
    by_cases h0 : n = 0
    · subst h0
      simp [bitLen]
    · have hhalf : n / 2 < 2 ^ fuel := by
        rw [pow_succ] at hn
        omega
      obtain ⟨hlt, hge⟩ := ih (n / 2) hhalf
      simp only [bitLen, if_neg h0, Nat.add_sub_cancel]
      constructor
      · rw [pow_succ]
        omega
      · intro _
        by_cases hz : n / 2 = 0
        · have h1 : n = 1 := by omega
          subst h1
          simp [bitLen_zero]
        · have hpos : 0 < n / 2 := Nat.pos_of_ne_zero hz
          have h2 := hge hpos
          have hL : 1 ≤ bitLen fuel (n / 2) := by
            cases fuel with
            | zero => omega
            | succ f => simp [bitLen, hz]
          have hpow : 2 ^ bitLen fuel (n / 2) = 2 * 2 ^ (bitLen fuel (n / 2) - 1) := by
            rw [← pow_succ']
            congr 1
            omega
          rw [hpow]
          omega

theorem bitLen_self (n : ℕ) (hn : 0 < n) :
    n < 2 ^ bitLen n n ∧ 2 ^ (bitLen n n - 1) ≤ n ∧ 1 ≤ bitLen n n := by
  obtain ⟨h1, h2⟩ := bitLen_spec n n (Nat.lt_two_pow n)
  refine ⟨h1, h2 hn, ?_⟩
  by_contra h
  have h0 : bitLen n n = 0 := by omega
  rw [h0] at h1
  omega

theorem bitLen_le_of_lt (n k : ℕ) (hn : 0 < n) (h : n < 2 ^ k) : bitLen n n ≤ k := by
  obtain ⟨_, h2, h3⟩ := bitLen_self n hn
  have : 2 ^ (bitLen n n - 1) < 2 ^ k := lt_of_le_of_lt h2 h
  have := (Nat.pow_lt_pow_iff_right (by decide : 1 < 2)).mp this
  omega

theorem bitLen_two_pow (i : ℕ) : bitLen (2 ^ i) (2 ^ i) = i + 1 := by
  have hpos : 0 < 2 ^ i := by positivity
  obtain ⟨h1, h2, h3⟩ := bitLen_self (2 ^ i) hpos
  have a := (Nat.pow_lt_pow_iff_right (by decide : 1 < 2)).mp h1
  have b := (Nat.pow_le_pow_iff_right (by decide : 1 < 2)).mp h2
  omega

theorem roundHalfEven_mul (c D : ℕ) (hD : 0 < D) : roundHalfEven (c * D) D = c := by
  unfold roundHalfEven
  simp only [Nat.mul_mod_left, Nat.mul_div_cancel _ hD, Nat.mul_zero]
  rw [if_pos hD]

theorem roundDouble_dyadic (q : ℚ) (i : ℕ) (hq : 0 < q) (hden : q.den = 2 ^ i)
    (hi : i ≤ 1074) (hnum : q.num.natAbs < 2 ^ 53) : roundDouble q = JSNum.fin q := by
  have hq0 : q ≠ 0 := ne_of_gt hq
  have hneg : ¬ q < 0 := not_lt.mpr (le_of_lt hq)
  have hnumpos : 0 < q.num := Rat.num_pos.mpr hq
  have hn : 0 < q.num.natAbs := Int.natAbs_pos.mpr (ne_of_gt hnumpos)
  have hcast : ((q.num.natAbs : ℕ) : ℚ) = (q.num : ℚ) := by
    rw [Nat.cast_natAbs, abs_of_pos hnumpos]
  have hqv : (q.num.natAbs : ℚ) / ((2 ^ i : ℕ) : ℚ) = q := by
    rw [hcast, ← hden]
    exact Rat.num_div_den q
  have hL : bitLen q.num.natAbs q.num.natAbs ≤ 53 := bitLen_le_of_lt _ 53 hn hnum
  have hb : binExp q.num.natAbs q.den ≤ 52 - (i : ℤ) := by
    unfold binExp
    rw [hden, bitLen_two_pow]
    simp only
    split_ifs <;> push_cast <;> omega
  generalize hE : max (binExp q.num.natAbs q.den - 52) (-1074) = E
  have hE1 : E ≤ -(i : ℤ) := by
    rw [← hE]
    apply max_le <;> omega
  have hE2 : -1074 ≤ E := by
    rw [← hE]
    exact le_max_right _ _
  unfold roundDouble
  simp only [if_neg hq0, if_neg hneg, hE]
  by_cases h0 : 0 ≤ E
  · have hEz : E = 0 := by omega
    have hiz : i = 0 := by omega
    subst hiz
    have hd1 : q.den = 1 := by simpa using hden
    have hm : roundHalfEven q.num.natAbs (q.den * 2 ^ E.toNat) = q.num.natAbs := by
      have := roundHalfEven_mul q.num.natAbs 1 (by decide)
      simpa [hd1, hEz] using this
    have hno : ¬ (0 ≤ E ∧ 2 ^ 1024 ≤ q.num.natAbs * 2 ^ E.toNat) := by
      rintro ⟨_, h⟩
      have : q.num.natAbs < 2 ^ 1024 :=
        lt_trans hnum (Nat.pow_lt_pow_right (by decide) (by decide))
      rw [hEz] at h
      simp only [Int.toNat_zero, pow_zero, mul_one] at h
      omega
    rw [if_pos h0, hm, if_neg hno, if_pos h0]
    refine congrArg JSNum.fin ?_
    rw [hEz]
    simpa using hqv
  · obtain ⟨t, ht⟩ : ∃ t : ℕ, (-E).toNat = i + t := ⟨(-E).toNat - i, by omega⟩
    have hm : roundHalfEven (q.num.natAbs * 2 ^ (-E).toNat) q.den = q.num.natAbs * 2 ^ t := by
      rw [hden, ht, pow_add, ← mul_assoc, mul_right_comm]
      exact roundHalfEven_mul _ _ (by positivity)
    rw [if_neg h0, hm, if_neg (fun h => h0 h.1), if_neg h0]
    refine congrArg JSNum.fin ?_
    rw [ht]
    have hfrac : (((q.num.natAbs * 2 ^ t : ℕ) : ℚ)) / ((2 ^ (i + t) : ℕ) : ℚ)
        = (q.num.natAbs : ℚ) / ((2 ^ i : ℕ) : ℚ) := by
      push_cast
      rw [pow_add]
      field_simp
      ring
    exact hfrac.trans hqv

theorem roundDouble_half (k : ℕ) (hk : k < 2 ^ 53) :
    roundDouble ((k : ℚ) / 2) = JSNum.fin ((k : ℚ) / 2) := by
  by_cases h0 : k = 0
  · subst h0
    simp [roundDouble]
  · have hkpos : (0 : ℚ) < (k : ℚ) := by exact_mod_cast Nat.pos_of_ne_zero h0
    have hq : (0 : ℚ) < (k : ℚ) / 2 := by positivity
    have e : (k : ℚ) / 2 = Rat.divInt (k : ℤ) 2 := by
      rw [Rat.divInt_eq_div]
      push_cast
      rfl
    have hdvd : (((k : ℚ) / 2).den : ℤ) ∣ 2 := by
      rw [e]
      exact Rat.den_dvd (k : ℤ) 2
    have hnum : ((k : ℚ) / 2).num ∣ (k : ℤ) := by
      rw [e]
      exact Rat.num_dvd (k : ℤ) (by decide)
    have hnat : ((k : ℚ) / 2).num.natAbs ≤ k := by
      have := Int.natAbs_dvd_natAbs.mpr hnum
      simpa using Nat.le_of_dvd (Nat.pos_of_ne_zero h0) this
    have hden : ((k : ℚ) / 2).den = 1 ∨ ((k : ℚ) / 2).den = 2 := by
      have h2 : ((k : ℚ) / 2).den ∣ 2 := by exact_mod_cast hdvd
      exact (Nat.dvd_prime Nat.prime_two).mp h2
    rcases hden with h1 | h2
    · exact roundDouble_dyadic _ 0 hq (by simpa using h1) (by decide) (lt_of_le_of_lt hnat hk)
    · exact roundDouble_dyadic _ 1 hq (by simpa using h2) (by decide) (lt_of_le_of_lt hnat hk)

theorem roundDouble_natCast (n : ℕ) (hn : n < 2 ^ 53) :
    roundDouble (n : ℚ) = JSNum.fin (n : ℚ) := by
  by_cases h0 : n = 0
  · subst h0
    simp [roundDouble]
  · have hq : (0 : ℚ) < (n : ℚ) := by exact_mod_cast Nat.pos_of_ne_zero h0
    exact roundDouble_dyadic _ 0 hq (by simp) (by decide) (by simpa using hn)

theorem mul_three_halves (s : ℕ) (hs : s ≤ 2 ^ 51) :
    (JSNum.fin (s : ℚ)).mul (JSNum.fin (3 / 2)) = JSNum.fin ((s : ℚ) * (3 / 2)) := by
  have h3 : 3 * s < 2 ^ 53 := by
    have : (2 : ℕ) ^ 53 = 4 * 2 ^ 51 := by norm_num
    omega
  have e : (s : ℚ) * (3 / 2) = ((3 * s : ℕ) : ℚ) / 2 := by
    push_cast
    ring
  show roundDouble ((s : ℚ) * (3 / 2)) = _
  rw [e]
  exact roundDouble_half _ h3

theorem mul_two (b : ℕ) (hb : b ≤ 2 ^ 51) :
    (JSNum.fin (b : ℚ)).mul (JSNum.fin 2) = JSNum.fin ((b : ℚ) * 2) := by
  have h2 : b * 2 < 2 ^ 53 := by
    have : (2 : ℕ) ^ 53 = 4 * 2 ^ 51 := by norm_num
    omega
  have e : (b : ℚ) * 2 = ((b * 2 : ℕ) : ℚ) := by push_cast; ring
  show roundDouble ((b : ℚ) * 2) = _
  rw [e]
  exact roundDouble_natCast _ h2

theorem add_natCast (a b : ℕ) (h : a + b < 2 ^ 53) :
    (JSNum.fin (a : ℚ)).add (JSNum.fin (b : ℚ)) = JSNum.fin ((a + b : ℕ) : ℚ) := by
  show roundDouble ((a : ℚ) + (b : ℚ)) = _
  rw [← Nat.cast_add]
  exact roundDouble_natCast _ h

/-! ## Helper lemmas: market scanner -/

theorem parseFloat_orZero (v : JSVal) : v.orZero.parseFloat = fieldNumber v := by
  cases v with
  | absent => rfl
  | text x => rfl
  | num x =>
    cases x with
    | nan => rfl
    | inf s => rfl
    | fin q =>
      by_cases hq : q = 0
      · subst hq
        simp [JSVal.orZero, JSVal.truthy, JSVal.parseFloat, fieldNumber]
      · simp [JSVal.orZero, JSVal.truthy, JSVal.parseFloat, fieldNumber, hq]

theorem toNumber_orZero (v : JSVal) : v.orZero.toNumber = fieldNumber v := by
  cases v with
  | absent => rfl
  | text x => rfl
  | num x =>
    cases x with
    | nan => rfl
    | inf s => rfl
    | fin q =>
      by_cases hq : q = 0
      · subst hq
        simp [JSVal.orZero, JSVal.truthy, JSVal.toNumber, fieldNumber]
      · simp [JSVal.orZero, JSVal.truthy, JSVal.toNumber, fieldNumber, hq]

theorem scoreRules_fst (vol liq change buys sells : JSNum) :
    (scoreRules vol liq change buys sells).1
      = (if vol.gt (JSNum.fin 100000) then 25 else 0)
        + (if change.gt (JSNum.fin 50) then 30 else if change.gt (JSNum.fin 20) then 20 else 0)
        + (if buys.gt (sells.mul (JSNum.fin (3 / 2))) then 25 else 0)
        + (if liq.gt (JSNum.fin 50000) then 20 else 0) := by
  unfold scoreRules
  split_ifs <;> rfl

theorem ruleWeightSum_le (p : Pair) : ruleWeightSum p ≤ 100 := by
  unfold ruleWeightSum
  split_ifs <;> decide

theorem scorePair_raw (p : Pair) :
    (scoreRules p.vol p.liq p.change p.buys p.sells).1 = ruleWeightSum p := by
  rw [scoreRules_fst]
  simp only [Pair.vol, Pair.liq, Pair.change, Pair.buys, Pair.sells, parseFloat_orZero,
    toNumber_orZero, ruleWeightSum]

theorem scorePair_score (p : Pair) : (scorePair p).score = min (ruleWeightSum p) 100 := by
  simp only [scorePair, scorePair_raw]

theorem scorePair_recommendation (p : Pair) :
    (scorePair p).recommendation = recOf (scorePair p).score := by
  have h := ruleWeightSum_le p
  simp only [scorePair, scorePair_raw, min_eq_left h]

theorem recOf_thresholds (s : ℕ) :
    (recOf s = Rec.STRONG_BUY ↔ 80 < s) ∧ (recOf s = Rec.BUY ↔ 60 < s ∧ s ≤ 80)
      ∧ (recOf s = Rec.WATCH ↔ 40 < s ∧ s ≤ 60) ∧ (recOf s = Rec.PASS ↔ s ≤ 40) := by
  unfold recOf
  split_ifs <;> simp <;> omega

theorem slice0_sublist {α : Type} (xs : List α) (stop : JSNum) :
    (slice0 xs stop).Sublist xs := by
  unfold slice0
  exact List.take_sublist _ _

theorem slice0_length_le {α : Type} (xs : List α) (q : ℚ) (hq : 0 ≤ q) :
    ((slice0 xs (JSNum.fin q)).length : ℚ) ≤ q := by
  have hfloor : (0 : ℤ) ≤ Rat.floor q := Rat.le_floor.mpr (by simpa using hq)
  have hle : ((Rat.floor q : ℤ) : ℚ) ≤ q := Rat.le_floor.mp le_rfl
  have hlen : ((slice0 xs (JSNum.fin q)).length : ℤ) ≤ Rat.floor q := by
    simp only [slice0, sliceEnd, if_pos hq, if_neg (not_lt.mpr hfloor), List.length_take]
    omega
  calc ((slice0 xs (JSNum.fin q)).length : ℚ)
      = (((slice0 xs (JSNum.fin q)).length : ℤ) : ℚ) := by push_cast; rfl
    _ ≤ ((Rat.floor q : ℤ) : ℚ) := by exact_mod_cast hlen
    _ ≤ q := hle

theorem scanMemes_mem (rt : Runtime) (limit : JSNum) (response : Option (List Pair))
    (c : Candidate) (h : c ∈ scanMemes rt limit response) :
    ∃ pairs p, response = some pairs ∧ p ∈ pairs ∧ keepPair rt p = true ∧ c = scorePair p := by
  cases response with
  | none => simp [scanMemes] at h
  | some pairs =>
    have h1 := (slice0_sublist _ limit).subset h
    rw [List.mem_insertionSort, List.mem_map] at h1
    obtain ⟨p, hp, rfl⟩ := h1
    rw [List.mem_filter] at hp
    exact ⟨pairs, p, rfl, hp.1, hp.2, rfl⟩

theorem scanMemes_sorted (rt : Runtime) (limit : JSNum) (response : Option (List Pair)) :
    (scanMemes rt limit response).Pairwise scoreGe := by
  cases response with
  | none => simp [scanMemes]
  | some pairs =>
    exact List.Pairwise.sublist (slice0_sublist _ limit) (List.sorted_insertionSort scoreGe _)

/-! ## Evaluation of the sample inputs -/

theorem scanMemes_some (rt : Runtime) (limit : JSNum) (pairs : List Pair) :
    scanMemes rt limit (some pairs)
      = slice0 (((pairs.filter (keepPair rt)).map scorePair).insertionSort scoreGe) limit := rfl

theorem keepPair_pairHot : keepPair asciiRuntime pairHot = true := by decide

theorem keepPair_pairPepe : keepPair asciiRuntime pairPepe = true := by decide

theorem mul_10_three_halves : (JSNum.fin 10).mul (JSNum.fin (3 / 2)) = JSNum.fin 15 := by
  have h := mul_three_halves 10 (by norm_num)
  norm_num at h
  exact h

theorem mul_0_three_halves : (JSNum.fin 0).mul (JSNum.fin (3 / 2)) = JSNum.fin 0 := by
  have h := mul_three_halves 0 (by norm_num)
  norm_num at h
  exact h

theorem mul_huge_three_halves :
    (JSNum.fin 9007199254740989).mul (JSNum.fin (3 / 2)) = JSNum.fin 13510798882111484 :=
  JSNum.eq_of_beq (by with_unfolding_all decide)

theorem score_pairHot : (scorePair pairHot).score = 100 := by
  rw [scorePair_score]
  simp [ruleWeightSum, pairHot, fieldNumber, mul_10_three_halves, JSNum.gt]
  norm_num

theorem score_pairPepe : (scorePair pairPepe).score = 0 := by
  rw [scorePair_score]
  simp [ruleWeightSum, pairPepe, fieldNumber, mul_0_three_halves, JSNum.gt]
  norm_num

theorem score_pairHuge : (scorePair pairHuge).score = 0 := by
  rw [scorePair_score]
  simp [ruleWeightSum, pairHuge, pairPepe, fieldNumber, mul_huge_three_halves, JSNum.gt]
  norm_num

theorem sliceEnd_two_neg_one : sliceEnd 2 (JSNum.fin (-1)) = 1 := by decide

theorem sliceEnd_two_five : sliceEnd 2 (JSNum.fin 5) = 2 := by decide

theorem sliceEnd_two_fifty : sliceEnd 2 (JSNum.fin 50) = 2 := by decide

theorem sliceEnd_fiftyOne_fifty : sliceEnd 51 (JSNum.fin 50) = 50 := by decide

theorem sorted_pepe_hot :
    (([pairPepe, pairHot].filter (keepPair asciiRuntime)).map scorePair).insertionSort scoreGe
      = [scorePair pairHot, scorePair pairPepe] := by
  simp [List.filter, keepPair_pairHot, keepPair_pairPepe, List.insertionSort,
    List.orderedInsert, scoreGe, score_pairHot, score_pairPepe]

theorem scanMemes_pepe_hot_five :
    scanMemes asciiRuntime (JSNum.fin 5) (some [pairPepe, pairHot])
      = [scorePair pairHot, scorePair pairPepe] := by
  rw [scanMemes_some, sorted_pepe_hot]
  simp [slice0, sliceEnd_two_five]

theorem scanMemes_pepe_hot_neg_one :
    scanMemes asciiRuntime (JSNum.fin (-1)) (some [pairPepe, pairHot]) = [scorePair pairHot] := by
  rw [scanMemes_some, sorted_pepe_hot]
  simp [slice0, sliceEnd_two_neg_one]

theorem keepPair_pairAlias : keepPair asciiRuntime pairAlias = true := by decide

theorem score_pairAlias : (scorePair pairAlias).score = 100 := score_pairHot

theorem matchesQuery_pepe_hot :
    matchesQuery asciiRuntime "PEPE" (scorePair pairHot) = false := by decide

theorem matchesQuery_pepe_pepe :
    matchesQuery asciiRuntime "PEPE" (scorePair pairPepe) = true := by decide

theorem matchesQuery_pepe_alias :
    matchesQuery asciiRuntime "PEPE" (scorePair pairAlias) = true := by decide

theorem scanMemes_fiftyOne :
    scanMemes asciiRuntime (JSNum.fin 50) (some pairsFiftyOne)
      = List.replicate 50 (scorePair pairHot) := by
  have hfilter : pairsFiftyOne.filter (keepPair asciiRuntime) = pairsFiftyOne := by
    rw [List.filter_eq_self]
    intro a ha
    simp only [pairsFiftyOne, List.mem_append, List.mem_replicate, List.mem_singleton] at ha
    rcases ha with ⟨_, rfl⟩ | rfl
    · exact keepPair_pairHot
    · exact keepPair_pairPepe
  have hmap : pairsFiftyOne.map scorePair
      = List.replicate 50 (scorePair pairHot) ++ [scorePair pairPepe] := by
    simp [pairsFiftyOne]
  have hsorted : (List.replicate 50 (scorePair pairHot) ++ [scorePair pairPepe]).Sorted scoreGe := by
    unfold List.Sorted
    rw [List.pairwise_append]
    refine ⟨?_, List.pairwise_singleton _ _, ?_⟩
    · rw [List.pairwise_replicate]
      exact Or.inr (Nat.le_refl _)
    · intro a ha b hb
      rw [List.mem_replicate] at ha
      rw [List.mem_singleton] at hb
      rw [ha.2, hb]
      simp [scoreGe, score_pairHot, score_pairPepe]
  rw [scanMemes_some, hfilter, hmap, hsorted.insertionSort_eq]
  have hlen : (List.replicate 50 (scorePair pairHot) ++ [scorePair pairPepe]).length = 51 := by
    simp
  simp only [slice0, hlen, sliceEnd_fiftyOne_fifty]
  simp

theorem scanMemes_pepe_alias :
    scanMemes asciiRuntime (JSNum.fin 50) (some [pairPepe, pairAlias])
      = [scorePair pairAlias, scorePair pairPepe] := by
  have hsort : (([pairPepe, pairAlias].filter (keepPair asciiRuntime)).map
      scorePair).insertionSort scoreGe = [scorePair pairAlias, scorePair pairPepe] := by
    simp [List.filter, keepPair_pairAlias, keepPair_pairPepe, List.insertionSort,
      List.orderedInsert, scoreGe, score_pairAlias, score_pairPepe]
  rw [scanMemes_some, hsort]
  simp [slice0, sliceEnd_two_fifty]

theorem scanMemes_pepe_hot_fifty :
    scanMemes asciiRuntime (JSNum.fin 50) (some [pairPepe, pairHot])
      = [scorePair pairHot, scorePair pairPepe] := by
  rw [scanMemes_some, sorted_pepe_hot]
  simp [slice0, sliceEnd_two_fifty]


theorem keepPair_pairHuge : keepPair asciiRuntime pairHuge = true := by decide

theorem sliceEnd_one_five : sliceEnd 1 (JSNum.fin 5) = 1 := by decide
/-! ## Claims: market scanner -/

/-- C1 as stated fails: a kept pair with 13510798882111484 buys and
9007199254740989 sells has buys > 1.5 * sells, so that the buy rule is
triggered and the rule weights sum to 25; the code takes the product
`sells*1.5` in double arithmetic, where it rounds up to the buy count, and
returns the score 0. -/
theorem C1_counterexample_double_product :
    scanMemes asciiRuntime (JSNum.fin 5) (some [pairHuge]) = [scorePair pairHuge]
      ∧ pairHuge.buysH24 = JSVal.num (JSNum.fin 13510798882111484)
      ∧ pairHuge.sellsH24 = JSVal.num (JSNum.fin 9007199254740989)
      ∧ (3 / 2 : ℚ) * 9007199254740989 < 13510798882111484
      ∧ (JSNum.fin 9007199254740989).mul (JSNum.fin (3 / 2)) = JSNum.fin 13510798882111484
      ∧ (scorePair pairHuge).score = 0
      ∧ (scorePair pairHuge).score ≠ 25 := by
  refine ⟨?_, rfl, rfl, by norm_num, mul_huge_three_halves, score_pairHuge, ?_⟩
  · rw [scanMemes_some]
    simp [List.filter, keepPair_pairHuge, List.insertionSort, List.orderedInsert, slice0,
      sliceEnd_one_five]
  · rw [score_pairHuge]
    decide

/-- C1, amended: every candidate `scanMemes` returns is the scored image of
a kept pair of the response; its score is the sum of the weights of the rules
the fields of that pair trigger (an absent field counting as 0, the product
`sells*1.5` taken in double arithmetic), clamped at 100; it lies in 0..100,
and the recommendation is fixed by that returned score through the
thresholds 80, 60 and 40; for counts that are natural numbers with sells at
most 2^51 the buy rule is triggered exactly when buys > 1.5 * sells. -/
theorem C1_score_and_recommendation (rt : Runtime) (limit : JSNum)
    (response : Option (List Pair)) (c : Candidate) (h : c ∈ scanMemes rt limit response) :
    (∃ pairs p, response = some pairs ∧ p ∈ pairs ∧ c = scorePair p
        ∧ c.score = min (ruleWeightSum p) 100)
      ∧ 0 ≤ c.score ∧ c.score ≤ 100
      ∧ (c.recommendation = Rec.STRONG_BUY ↔ 80 < c.score)
      ∧ (c.recommendation = Rec.BUY ↔ 60 < c.score ∧ c.score ≤ 80)
      ∧ (c.recommendation = Rec.WATCH ↔ 40 < c.score ∧ c.score ≤ 60)
      ∧ (c.recommendation = Rec.PASS ↔ c.score ≤ 40)
      ∧ (∀ (p : Pair) (b s : ℕ), s ≤ 2 ^ 51 →
          p.buysH24 = JSVal.num (JSNum.fin (b : ℚ)) →
          p.sellsH24 = JSVal.num (JSNum.fin (s : ℚ)) →
          ((fieldNumber p.buysH24).gt ((fieldNumber p.sellsH24).mul (JSNum.fin (3 / 2))) = true
            ↔ (3 / 2 : ℚ) * (s : ℚ) < (b : ℚ))) := by
  obtain ⟨pairs, p, hr, hp, _, rfl⟩ := scanMemes_mem rt limit response c h
  refine ⟨⟨pairs, p, hr, hp, rfl, scorePair_score p⟩, Nat.zero_le _, ?_, ?_⟩
  · rw [scorePair_score]; exact min_le_right _ _
  · rw [scorePair_recommendation]
    obtain ⟨h1, h2, h3, h4⟩ := recOf_thresholds (scorePair p).score
    refine ⟨h1, h2, h3, h4, ?_⟩
    intro p' b s hs hb hsell
    rw [hb, hsell]
    simp only [fieldNumber, mul_three_halves s hs, JSNum.gt, decide_eq_true_eq]
    constructor <;> intro hlt <;> linarith

/-- Witness for C1 (amended) on a two-pair response: the pair with 40 buys
and 10 sells triggers every rule and scores 100. -/
theorem C1_score_and_recommendation_witness :
    scorePair pairHot ∈ scanMemes asciiRuntime (JSNum.fin 5) (some [pairPepe, pairHot])
      ∧ (scorePair pairHot).score ≤ 100
      ∧ ((scorePair pairHot).recommendation = Rec.STRONG_BUY ↔ 80 < (scorePair pairHot).score)
      ∧ ((fieldNumber pairHot.buysH24).gt
            ((fieldNumber pairHot.sellsH24).mul (JSNum.fin (3 / 2))) = true
          ↔ (3 / 2 : ℚ) * ((10 : ℕ) : ℚ) < ((40 : ℕ) : ℚ))
      ∧ (scorePair pairHot).score = 100 := by
  have hmem : scorePair pairHot
      ∈ scanMemes asciiRuntime (JSNum.fin 5) (some [pairPepe, pairHot]) := by
    rw [scanMemes_pepe_hot_five]
    exact List.mem_cons_self _ _
  obtain ⟨_, _, hle, hsb, _, _, _, hexact⟩ :=
    C1_score_and_recommendation asciiRuntime (JSNum.fin 5) (some [pairPepe, pairHot])
      (scorePair pairHot) hmem
  exact ⟨hmem, hle, hsb,
    hexact pairHot 40 10 (by norm_num) (by simp [pairHot]) (by simp [pairHot]),
    score_pairHot⟩

/-- C2 as stated fails: with the limit -1 and two kept pairs `scanMemes`
returns one element, which is more than the limit. -/
theorem C2_counterexample_negative_limit :
    scanMemes asciiRuntime (JSNum.fin (-1)) (some [pairPepe, pairHot]) = [scorePair pairHot]
      ∧ ¬ (((scanMemes asciiRuntime (JSNum.fin (-1)) (some [pairPepe, pairHot])).length : ℚ)
            ≤ (-1 : ℚ)) := by
  refine ⟨scanMemes_pepe_hot_neg_one, ?_⟩
  rw [scanMemes_pepe_hot_neg_one]
  norm_num

/-- C2, amended: for every limit and response the result of `scanMemes` is
in non-increasing order of score, and for every limit that is not negative
it has at most `limit` elements. -/
theorem C2_sorted_and_bounded (rt : Runtime) (limit : JSNum) (response : Option (List Pair)) :
    (scanMemes rt limit response).Pairwise (fun a b => b.score ≤ a.score)
      ∧ (∀ q : ℚ, limit = JSNum.fin q → 0 ≤ q →
          ((scanMemes rt limit response).length : ℚ) ≤ q) := by
  refine ⟨scanMemes_sorted rt limit response, ?_⟩
  rintro q rfl hq
  cases response with
  | none => simpa [scanMemes] using hq
  | some pairs => exact slice0_length_le _ q hq

/-- Witness for C2 (amended) at the limit 1 on a two-pair response. -/
theorem C2_sorted_and_bounded_witness :
    (scanMemes asciiRuntime (JSNum.fin 1) (some [pairPepe, pairHot])).Pairwise
        (fun a b => b.score ≤ a.score)
      ∧ ((scanMemes asciiRuntime (JSNum.fin 1) (some [pairPepe, pairHot])).length : ℚ) ≤ 1 :=
  ⟨(C2_sorted_and_bounded asciiRuntime (JSNum.fin 1) (some [pairPepe, pairHot])).1,
    (C2_sorted_and_bounded asciiRuntime (JSNum.fin 1) (some [pairPepe, pairHot])).2 1 rfl
      (by norm_num)⟩

/-- C9 as stated fails: a kept candidate with symbol PEPE that ranks 51st is
outside the pool of 50, so `analyzeToken` returns not-found; and a candidate
ranked first whose address reads as the query is returned in place of the
one with the symbol. -/
theorem C9_counterexample_pepe_missed :
    (pairPepe ∈ pairsFiftyOne ∧ keepPair asciiRuntime pairPepe = true
        ∧ asciiRuntime.toLowerCase pairPepe.symbol = asciiRuntime.toLowerCase "PEPE"
        ∧ analyzeToken asciiRuntime "PEPE" (some pairsFiftyOne) = none)
      ∧ (scorePair pairPepe ∈ scanMemes asciiRuntime (JSNum.fin 50) (some [pairPepe, pairAlias])
          ∧ asciiRuntime.toLowerCase (scorePair pairPepe).symbol
              = asciiRuntime.toLowerCase "PEPE"
          ∧ analyzeToken asciiRuntime "PEPE" (some [pairPepe, pairAlias])
              = some (scorePair pairAlias)
          ∧ asciiRuntime.toLowerCase (scorePair pairAlias).symbol
              ≠ asciiRuntime.toLowerCase "PEPE") := by
  refine ⟨⟨?_, keepPair_pairPepe, by decide, ?_⟩, ?_, by decide, ?_, by decide⟩
  · simp [pairsFiftyOne]
  · unfold analyzeToken
    rw [scanMemes_fiftyOne]
    exact List.find?_replicate_of_neg (by simp [matchesQuery_pepe_hot])
  · rw [scanMemes_pepe_alias]
    simp
  · unfold analyzeToken
    rw [scanMemes_pepe_alias]
    exact List.find?_cons_of_pos _ matchesQuery_pepe_alias

/-- C9, amended: `analyzeToken(query)` returns the first candidate of
`scanMemes(50)` whose symbol or address equals the query ignoring case, and
not-found exactly when no candidate of that pool matches; when that pool
holds a candidate with the queried symbol the result is a candidate whose
symbol or address equals the query, and it has the symbol when no address
in the pool reads as the query. -/
theorem C9_first_match_in_pool (rt : Runtime) (query : String)
    (response : Option (List Pair)) :
    (∀ c, analyzeToken rt query response = some c ↔
        ∃ l₁ l₂, scanMemes rt (JSNum.fin 50) response = l₁ ++ c :: l₂
          ∧ matchesQuery rt query c = true ∧ ∀ x ∈ l₁, matchesQuery rt query x = false)
      ∧ (analyzeToken rt query response = none ↔
          ∀ c ∈ scanMemes rt (JSNum.fin 50) response, matchesQuery rt query c = false)
      ∧ (∀ c, matchesQuery rt query c = true ↔
          (rt.toLowerCase c.symbol = rt.toLowerCase query
            ∨ rt.toLowerCase c.address = rt.toLowerCase query))
      ∧ ((∃ c ∈ scanMemes rt (JSNum.fin 50) response,
            rt.toLowerCase c.symbol = rt.toLowerCase query) →
          ∃ c, analyzeToken rt query response = some c
            ∧ (rt.toLowerCase c.symbol = rt.toLowerCase query
                ∨ rt.toLowerCase c.address = rt.toLowerCase query)
            ∧ ((∀ x ∈ scanMemes rt (JSNum.fin 50) response,
                  rt.toLowerCase x.address ≠ rt.toLowerCase query) →
                rt.toLowerCase c.symbol = rt.toLowerCase query)) := by
  have hmatch : ∀ c, matchesQuery rt query c = true ↔
      (rt.toLowerCase c.symbol = rt.toLowerCase query
        ∨ rt.toLowerCase c.address = rt.toLowerCase query) := by
    intro c
    simp [matchesQuery]
  refine ⟨?_, ?_, hmatch, ?_⟩
  · intro c
    unfold analyzeToken
    rw [List.find?_eq_some]
    constructor
    · rintro ⟨hc, l₁, l₂, hl, hpre⟩
      exact ⟨l₁, l₂, hl, hc, fun x hx => by simpa using hpre x hx⟩
    · rintro ⟨l₁, l₂, hl, hc, hpre⟩
      exact ⟨hc, l₁, l₂, hl, fun x hx => by simp [hpre x hx]⟩
  · unfold analyzeToken
    rw [List.find?_eq_none]
    simp
  · rintro ⟨c₀, hc₀, hsym⟩
    cases hfind : analyzeToken rt query response with
    | none =>
      unfold analyzeToken at hfind
      rw [List.find?_eq_none] at hfind
      exact absurd ((hmatch c₀).mpr (Or.inl hsym)) (hfind c₀ hc₀)
    | some c =>
      unfold analyzeToken at hfind
      have hc := (hmatch c).mp (List.find?_some hfind)
      refine ⟨c, rfl, hc, fun hno => ?_⟩
      rcases hc with h | h
      · exact h
      · exact absurd h (hno c (List.mem_of_find?_eq_some hfind))

/-- Witness for C9 (amended): the query PEPE on a two-pair response. -/
theorem C9_first_match_in_pool_witness :
    (∃ c ∈ scanMemes asciiRuntime (JSNum.fin 50) (some [pairPepe, pairHot]),
        asciiRuntime.toLowerCase c.symbol = asciiRuntime.toLowerCase "PEPE")
      ∧ ∃ c, analyzeToken asciiRuntime "PEPE" (some [pairPepe, pairHot]) = some c
          ∧ (asciiRuntime.toLowerCase c.symbol = asciiRuntime.toLowerCase "PEPE"
              ∨ asciiRuntime.toLowerCase c.address = asciiRuntime.toLowerCase "PEPE") := by
  have hex : ∃ c ∈ scanMemes asciiRuntime (JSNum.fin 50) (some [pairPepe, pairHot]),
      asciiRuntime.toLowerCase c.symbol = asciiRuntime.toLowerCase "PEPE" :=
    ⟨scorePair pairPepe, by rw [scanMemes_pepe_hot_fifty]; simp, by decide⟩
  obtain ⟨c, hc, hm, _⟩ :=
    (C9_first_match_in_pool asciiRuntime "PEPE" (some [pairPepe, pairHot])).2.2.2 hex
  exact ⟨hex, c, hc, hm⟩

/-! ## Helper lemmas: whale tracker -/

theorem isAccum_iff (buys sells : ℕ) (hs : sells ≤ 2 ^ 51) :
    isAccum buys sells = true ↔ 3 * sells < 2 * buys := by
  unfold isAccum
  rw [mul_three_halves sells hs]
  simp only [JSNum.gt, decide_eq_true_eq]
  constructor
  · intro h
    have h2 : ((3 * sells : ℕ) : ℚ) < ((2 * buys : ℕ) : ℚ) := by push_cast; linarith
    exact_mod_cast h2
  · intro h
    have h2 : ((3 * sells : ℕ) : ℚ) < ((2 * buys : ℕ) : ℚ) := by exact_mod_cast h
    push_cast at h2
    linarith

theorem sellDominates_iff (buys sells : ℕ) (hb : buys ≤ 2 ^ 51) :
    sellDominates buys sells = true ↔ 2 * buys < sells := by
  unfold sellDominates
  rw [mul_two buys hb]
  simp only [JSNum.gt, decide_eq_true_eq]
  constructor
  · intro h
    have h2 : ((2 * buys : ℕ) : ℚ) < ((sells : ℕ) : ℚ) := by push_cast; linarith
    exact_mod_cast h2
  · intro h
    have h2 : ((2 * buys : ℕ) : ℚ) < ((sells : ℕ) : ℚ) := by exact_mod_cast h
    push_cast at h2
    linarith

theorem window_le (txs : List Transfer) (f : Transfer → Bool) :
    ((txs.take 20).filter f).length ≤ 2 ^ 51 := by
  have h1 : ((txs.take 20).filter f).length ≤ (txs.take 20).length := List.length_filter_le _ _
  have h2 : (txs.take 20).length ≤ 20 := by
    rw [List.length_take]
    exact min_le_left _ _
  have h3 : (20 : ℕ) ≤ 2 ^ 51 := by norm_num
  omega

theorem trackWhale_some (rt : Runtime) (address : String) (txs : List Transfer)
    (h : txs ≠ []) :
    trackWhale rt address (some txs) = some
      { address := address
        signal := signalOf (buysOf rt address txs).length (sellsOf rt address txs).length
        confidence := min (whaleScore
          (isAccum (buysOf rt address txs).length (sellsOf rt address txs).length)
          (inboundSum rt address txs)) 100
        isAccumulating := isAccum (buysOf rt address txs).length (sellsOf rt address txs).length
        buys := (buysOf rt address txs).length
        sells := (sellsOf rt address txs).length } := by
  have hlen : ¬ txs.length = 0 := fun h0 => h (List.length_eq_zero.mp h0)
  simp only [trackWhale, if_neg hlen]

theorem trackWhale_cases (rt : Runtime) (address : String) (response : Option (List Transfer))
    (s : WhaleSignal) (h : trackWhale rt address response = some s) :
    ∃ txs, response = some txs ∧ txs ≠ []
      ∧ s.signal = signalOf s.buys s.sells
      ∧ s.isAccumulating = isAccum s.buys s.sells
      ∧ s.confidence = min (whaleScore s.isAccumulating (inboundSum rt address txs)) 100 := by
  cases response with
  | none => simp [trackWhale] at h
  | some txs =>
    by_cases hne : txs = []
    · subst hne
      simp [trackWhale] at h
    · rw [trackWhale_some rt address txs hne] at h
      injection h with h
      subst h
      exact ⟨txs, rfl, hne, rfl, rfl, rfl⟩

theorem whaleScore_values (accum : Bool) (inbound : JSNum) :
    whaleScore accum inbound
      = (if accum then 40 else 0) + (if inbound.gt (JSNum.fin 1000) then 30 else 0) := by
  unfold whaleScore
  split_ifs <;> rfl

theorem collectWhales_mem (rt : Runtime) (chain : String → Option (List Transfer))
    (addrs : List String) (s : WhaleSignal) (h : s ∈ collectWhales rt chain addrs) :
    ∃ addr ∈ addrs, trackWhale rt addr (chain addr) = some s ∧ 50 < s.confidence := by
  have key : ∀ (l : List String) (acc : List WhaleSignal),
      s ∈ l.foldl
        (fun results addr =>
          match trackWhale rt addr (chain addr) with
          | some data => if data.confidence > 50 then results ++ [data] else results
          | none => results) acc →
      s ∈ acc ∨ ∃ addr ∈ l, trackWhale rt addr (chain addr) = some s ∧ 50 < s.confidence := by
    intro l
    induction l with
    | nil => intro acc hs; exact Or.inl hs
    | cons a l ih =>
      intro acc hs
      rw [List.foldl_cons] at hs
      rcases ih _ hs with hacc | ⟨addr, haddr, htw, hc⟩
      · cases htw : trackWhale rt a (chain a) with
        | none =>
          rw [htw] at hacc
          exact Or.inl hacc
        | some data =>
          rw [htw] at hacc
          by_cases hconf : data.confidence > 50
          · simp only [if_pos hconf, List.mem_append, List.mem_singleton] at hacc
            rcases hacc with hacc | rfl
            · exact Or.inl hacc
            · exact Or.inr ⟨a, List.mem_cons_self _ _, htw, hconf⟩
          · simp only [if_neg hconf] at hacc
            exact Or.inl hacc
      · exact Or.inr ⟨addr, List.mem_cons_of_mem _ haddr, htw, hc⟩
  rcases key addrs [] h with hnil | hex
  · simp at hnil
  · exact hex

theorem trackWhale_confidence_values (rt : Runtime) (address : String)
    (response : Option (List Transfer)) (s : WhaleSignal)
    (h : trackWhale rt address response = some s) :
    (s.confidence = 0 ∨ s.confidence = 30 ∨ s.confidence = 40 ∨ s.confidence = 70)
      ∧ (50 < s.confidence →
          s.confidence = 70 ∧ s.isAccumulating = true ∧ s.signal = Signal.BUY) := by
  obtain ⟨txs, _, _, hsig, hacc, hconf⟩ := trackWhale_cases rt address response s h
  rw [whaleScore_values] at hconf
  cases hA : s.isAccumulating with
  | false =>
    rw [hA] at hconf
    by_cases hgt : (inboundSum rt address txs).gt (JSNum.fin 1000) = true
    · simp [hgt] at hconf
      rw [hconf]
      simp
    · simp [hgt] at hconf
      rw [hconf]
      simp
  | true =>
    have hsignal : s.signal = Signal.BUY := by
      rw [hsig, signalOf, ← hacc, hA]
      simp
    rw [hA] at hconf
    by_cases hgt : (inboundSum rt address txs).gt (JSNum.fin 1000) = true
    · simp [hgt] at hconf
      rw [hconf]
      simp [hsignal]
    · simp [hgt] at hconf
      rw [hconf]
      simp

theorem scanWhales_mem (rt : Runtime) (chain : String → Option (List Transfer))
    (s : WhaleSignal) (h : s ∈ scanWhales rt chain) :
    ∃ addr ∈ WHALES, trackWhale rt addr (chain addr) = some s ∧ 50 < s.confidence := by
  unfold scanWhales at h
  rw [List.mem_insertionSort] at h
  exact collectWhales_mem rt chain WHALES s h

theorem add_zero_1000 : (JSNum.fin 0).add (JSNum.fin 1000) = JSNum.fin 1000 := by
  have h := add_natCast 0 1000 (by norm_num)
  norm_num at h
  exact h

theorem add_zero_2500 : (JSNum.fin 0).add (JSNum.fin 2500) = JSNum.fin 2500 := by
  have h := add_natCast 0 2500 (by norm_num)
  norm_num at h
  exact h

theorem add_1000_tiny :
    (JSNum.fin 1000).add (JSNum.lit (1 / 100000000000000000000)) = JSNum.fin 1000 :=
  JSNum.eq_of_beq (by with_unfolding_all decide)

theorem lit_tiny_pos :
    ∃ v : ℚ, JSNum.lit (1 / 100000000000000000000) = JSNum.fin v ∧ 0 < v := by
  have h : JSNum.lit (1 / 100000000000000000000)
      = JSNum.fin (6646139978924579 / 664613997892457936451903530140172288) :=
    JSNum.eq_of_beq (by with_unfolding_all decide)
  exact ⟨_, h, by norm_num⟩

theorem buysOf_txsThousand : buysOf asciiRuntime "0xabc" txsThousand = txsThousand := by decide

theorem sellsOf_txsThousand : sellsOf asciiRuntime "0xabc" txsThousand = [] := by decide

theorem inboundSum_txsThousand :
    inboundSum asciiRuntime "0xabc" txsThousand = JSNum.fin 1000 := by
  rw [inboundSum, buysOf_txsThousand]
  simp [txsThousand, JSVal.parseFloat, add_zero_1000]

theorem buysOf_txsLarge : buysOf asciiRuntime "0xabc" txsLarge = txsLarge := by decide

theorem sellsOf_txsLarge : sellsOf asciiRuntime "0xabc" txsLarge = [] := by decide

theorem inboundSum_txsLarge : inboundSum asciiRuntime "0xabc" txsLarge = JSNum.fin 2500 := by
  rw [inboundSum, buysOf_txsLarge]
  simp [txsLarge, JSVal.parseFloat, add_zero_2500]

theorem isAccum_one_zero : isAccum 1 0 = true := (isAccum_iff 1 0 (by norm_num)).mpr (by decide)

theorem isAccum_two_zero : isAccum 2 0 = true := (isAccum_iff 2 0 (by norm_num)).mpr (by decide)

theorem trackWhale_txsLarge :
    trackWhale asciiRuntime "0xabc" (some txsLarge) = some
      { address := "0xabc", signal := Signal.BUY, confidence := 70, isAccumulating := true,
        buys := 1, sells := 0 } := by
  rw [trackWhale_some asciiRuntime "0xabc" txsLarge (by decide), inboundSum_txsLarge,
    buysOf_txsLarge, sellsOf_txsLarge]
  simp [txsLarge, isAccum_one_zero, signalOf, whaleScore, JSNum.gt]
  norm_num

theorem trackWhale_txsThousand :
    trackWhale asciiRuntime "0xabc" (some txsThousand) = some
      { address := "0xabc", signal := Signal.BUY, confidence := 40, isAccumulating := true,
        buys := 1, sells := 0 } := by
  rw [trackWhale_some asciiRuntime "0xabc" txsThousand (by decide), inboundSum_txsThousand,
    buysOf_txsThousand, sellsOf_txsThousand]
  simp [txsThousand, isAccum_one_zero, signalOf, whaleScore, JSNum.gt]

theorem buysOf_txsAbsorb : buysOf asciiRuntime "0xabc" txsAbsorb = txsAbsorb := by
  simp only [buysOf, recentOf, txsAbsorb, List.take, List.filter]
  have h : (decide (asciiRuntime.toLowerCase "0xabc" = asciiRuntime.toLowerCase "0xabc")) = true := by
    decide
  simp [h]

theorem sellsOf_txsAbsorb : sellsOf asciiRuntime "0xabc" txsAbsorb = [] := by
  simp only [sellsOf, recentOf, txsAbsorb, List.take, List.filter]
  have h : (decide (asciiRuntime.toLowerCase "0xdef" = asciiRuntime.toLowerCase "0xabc")) = false := by
    decide
  simp [h]

theorem inboundSum_txsAbsorb :
    inboundSum asciiRuntime "0xabc" txsAbsorb = JSNum.fin 1000 := by
  rw [inboundSum, buysOf_txsAbsorb]
  simp only [txsAbsorb, List.foldl, JSVal.parseFloat, add_zero_1000, add_1000_tiny]

theorem trackWhale_txsAbsorb :
    trackWhale asciiRuntime "0xabc" (some txsAbsorb) = some
      { address := "0xabc", signal := Signal.BUY, confidence := 40, isAccumulating := true,
        buys := 2, sells := 0 } := by
  rw [trackWhale_some asciiRuntime "0xabc" txsAbsorb (by simp [txsAbsorb]),
    inboundSum_txsAbsorb, buysOf_txsAbsorb, sellsOf_txsAbsorb]
  simp [txsAbsorb, isAccum_two_zero, signalOf, whaleScore, JSNum.gt]

theorem buysOf_txsOut : buysOf asciiRuntime "0xabc" txsOut = [] := by decide

theorem sellsOf_txsOut : sellsOf asciiRuntime "0xabc" txsOut = txsOut := by decide

theorem trackWhale_txsOut :
    trackWhale asciiRuntime "0xabc" (some txsOut) = some
      { address := "0xabc", signal := Signal.SELL, confidence := 0, isAccumulating := false,
        buys := 0, sells := 1 } := by
  have hA : isAccum 0 1 = false := by
    rw [Bool.eq_false_iff, Ne, isAccum_iff 0 1 (by norm_num)]
    decide
  have hS : sellDominates 0 1 = true := (sellDominates_iff 0 1 (by norm_num)).mpr (by decide)
  rw [trackWhale_some asciiRuntime "0xabc" txsOut (by decide), inboundSum, buysOf_txsOut,
    sellsOf_txsOut]
  simp [txsOut, hA, hS, signalOf, whaleScore, JSNum.gt]

/-! ## Claims: whale tracker -/

/-- C5 as stated fails: one inbound transfer of value exactly 1000 gives
isAccumulating = true and an inbound sum of 1000 (which is >= 1000), yet the
confidence is 40, not 70; and two inbound transfers of 1000 and of 1e-20,
whose exact sum is above 1000, add up to the double 1000 and give 40 too. -/
theorem C5_counterexample_sum_exactly_1000 :
    (∃ s, trackWhale asciiRuntime "0xabc" (some txsThousand) = some s
        ∧ s.isAccumulating = true
        ∧ inboundSum asciiRuntime "0xabc" txsThousand = JSNum.fin 1000
        ∧ (1000 : ℚ) ≤ 1000
        ∧ s.confidence = 40
        ∧ s.confidence ≠ 70)
      ∧ (∃ s v, trackWhale asciiRuntime "0xabc" (some txsAbsorb) = some s
          ∧ s.isAccumulating = true
          ∧ JSNum.lit (1 / 100000000000000000000) = JSNum.fin v
          ∧ (1000 : ℚ) < 1000 + v
          ∧ inboundSum asciiRuntime "0xabc" txsAbsorb = JSNum.fin 1000
          ∧ s.confidence = 40) := by
  refine ⟨⟨_, trackWhale_txsThousand, rfl, inboundSum_txsThousand, le_refl _, rfl, by decide⟩, ?_⟩
  obtain ⟨v, hv, hpos⟩ := lit_tiny_pos
  exact ⟨_, v, trackWhale_txsAbsorb, rfl, hv, by linarith, inboundSum_txsAbsorb, rfl⟩

/-- C5, amended: for every address and every non-empty transfer history
`trackWhale` returns a signal whose confidence lies in 0..100; whenever
isAccumulating is true and the sum the code computes over the inbound
transfers of the 20-transfer window (double additions of the parsed values,
left to right) is strictly greater than 1000 the confidence is exactly 70,
and when isAccumulating is true and that sum is not greater than 1000 the
confidence is 40. -/
theorem C5_confidence_bounds (rt : Runtime) (address : String) (txs : List Transfer)
    (h : txs ≠ []) :
    ∃ s, trackWhale rt address (some txs) = some s
      ∧ 0 ≤ s.confidence ∧ s.confidence ≤ 100
      ∧ (s.isAccumulating = true →
          (((txs.take 20).filter
              (fun t => decide (rt.toLowerCase t.to_ = rt.toLowerCase address))).foldl
            (fun a b => a.add b.value.parseFloat) (JSNum.fin 0)).gt (JSNum.fin 1000) = true →
          s.confidence = 70)
      ∧ (s.isAccumulating = true →
          (((txs.take 20).filter
              (fun t => decide (rt.toLowerCase t.to_ = rt.toLowerCase address))).foldl
            (fun a b => a.add b.value.parseFloat) (JSNum.fin 0)).gt (JSNum.fin 1000) = false →
          s.confidence = 40) := by
  refine ⟨_, trackWhale_some rt address txs h, Nat.zero_le _, min_le_right _ _, ?_, ?_⟩
  · intro hacc hgt
    simp only at hacc
    have hsum : (inboundSum rt address txs).gt (JSNum.fin 1000) = true := hgt
    simp only [hacc, hsum, whaleScore, if_true]
    decide
  · intro hacc hgt
    simp only at hacc
    have hsum : (inboundSum rt address txs).gt (JSNum.fin 1000) = false := hgt
    simp only [hacc, hsum, whaleScore, if_true]
    decide

/-- Witness for C5 (amended): one inbound transfer of 2500 units. -/
theorem C5_confidence_bounds_witness :
    txsLarge ≠ []
      ∧ ∃ s, trackWhale asciiRuntime "0xabc" (some txsLarge) = some s ∧ s.confidence = 70 := by
  have hne : txsLarge ≠ [] := by decide
  obtain ⟨s, hs, _, _, h70, _⟩ := C5_confidence_bounds asciiRuntime "0xabc" txsLarge hne
  refine ⟨hne, s, hs, h70 ?_ ?_⟩
  · rw [trackWhale_txsLarge] at hs
    injection hs with hs
    rw [← hs]
  · have hsum := inboundSum_txsLarge
    unfold inboundSum buysOf recentOf at hsum
    rw [hsum]
    simp [JSNum.gt]
    norm_num

/-- C6: for every address and non-empty history, with buys and sells the
numbers of inbound and outbound transfers among the 20 most recent ones, the
signal is BUY exactly when isAccumulating (buys > 1.5*sells); it is SELL
exactly when not accumulating and sells > 2*buys, hence only when
sells >= 2*buys and then isAccumulating is false; it is HOLD in every other
case; the BUY test and sells >= 2*buys never hold together, and testing SELL
before BUY gives the same signal. -/
theorem C6_signal_cases (rt : Runtime) (address : String) (txs : List Transfer)
    (h : txs ≠ []) :
    ∃ s, trackWhale rt address (some txs) = some s
      ∧ s.buys = ((txs.take 20).filter
          (fun t => decide (rt.toLowerCase t.to_ = rt.toLowerCase address))).length
      ∧ s.sells = ((txs.take 20).filter
          (fun t => decide (rt.toLowerCase t.from_ = rt.toLowerCase address))).length
      ∧ s.buys ≤ 20 ∧ s.sells ≤ 20
      ∧ (s.isAccumulating = true ↔ (s.sells : ℚ) * (3 / 2) < (s.buys : ℚ))
      ∧ (s.signal = Signal.BUY ↔ s.isAccumulating = true)
      ∧ (s.signal = Signal.SELL ↔ s.isAccumulating = false ∧ 2 * s.buys < s.sells)
      ∧ (s.signal = Signal.SELL → 2 * s.buys ≤ s.sells ∧ s.isAccumulating = false)
      ∧ (s.signal = Signal.HOLD ↔ ¬ s.signal = Signal.BUY ∧ ¬ s.signal = Signal.SELL)
      ∧ (s.isAccumulating = false → ¬ 2 * s.buys ≤ s.sells → s.signal = Signal.HOLD)
      ∧ ¬ ((s.sells : ℚ) * (3 / 2) < (s.buys : ℚ) ∧ 2 * s.buys ≤ s.sells)
      ∧ signalOfSwapped s.buys s.sells = s.signal := by
  have hwin : ∀ f : Transfer → Bool, ((txs.take 20).filter f).length ≤ 20 := by
    intro f
    have h1 : ((txs.take 20).filter f).length ≤ (txs.take 20).length :=
      List.length_filter_le _ _
    have h2 : (txs.take 20).length ≤ 20 := by
      rw [List.length_take]
      exact min_le_left _ _
    omega
  refine ⟨_, trackWhale_some rt address txs h, rfl, rfl, hwin _, hwin _, ?_⟩
  have hb51 := window_le txs (fun t => decide (rt.toLowerCase t.to_ = rt.toLowerCase address))
  have hk51 := window_le txs (fun t => decide (rt.toLowerCase t.from_ = rt.toLowerCase address))
  simp only [buysOf, sellsOf, recentOf]
  generalize ((txs.take 20).filter
    (fun t => decide (rt.toLowerCase t.to_ = rt.toLowerCase address))).length = b at hb51 ⊢
  generalize ((txs.take 20).filter
    (fun t => decide (rt.toLowerCase t.from_ = rt.toLowerCase address))).length = k at hk51 ⊢
  have hA := isAccum_iff b k hk51
  have hS := sellDominates_iff b k hb51
  have hQ : ((k : ℚ) * (3 / 2) < (b : ℚ)) ↔ 3 * k < 2 * b := by
    constructor
    · intro hlt
      have h2 : ((3 * k : ℕ) : ℚ) < ((2 * b : ℕ) : ℚ) := by push_cast; linarith
      exact_mod_cast h2
    · intro hlt
      have h2 : ((3 * k : ℕ) : ℚ) < ((2 * b : ℕ) : ℚ) := by exact_mod_cast hlt
      push_cast at h2
      linarith
  refine ⟨by rw [hA, hQ], ?_, ?_, ?_, ?_, ?_, ?_, ?_⟩
  · unfold signalOf
    by_cases h1 : isAccum b k = true
    · simp [h1]
    · by_cases h2 : sellDominates b k = true <;> simp [h1, h2]
  · unfold signalOf
    by_cases h1 : isAccum b k = true
    · simp [h1]
    · by_cases h2 : sellDominates b k = true
      · simp [h1, h2, hS.mp h2]
      · have h3 : ¬ 2 * b < k := fun h3 => h2 (hS.mpr h3)
        simp [h1, h2, h3]
  · unfold signalOf
    by_cases h1 : isAccum b k = true
    · simp [h1]
    · by_cases h2 : sellDominates b k = true
      · have h3 := hS.mp h2
        simp [h1, h2]
        omega
      · simp [h1, h2]
  · unfold signalOf
    by_cases h1 : isAccum b k = true
    · simp [h1]
    · by_cases h2 : sellDominates b k = true <;> simp [h1, h2]
  · intro h1 h3
    have h2 : ¬ sellDominates b k = true := by
      rw [hS]
      omega
    unfold signalOf
    simp [h1, h2]
  · rw [hQ]
    omega
  · unfold signalOfSwapped signalOf
    by_cases h1 : isAccum b k = true
    · have h3 : ¬ sellDominates b k = true := by
        rw [hS]
        have := hA.mp h1
        omega
      simp [h1, h3]
    · by_cases h2 : sellDominates b k = true <;> simp [h1, h2]

/-- Witness for C6: twenty inbound transfers followed by forty outbound ones
count as 20 buys and 0 sells, and the signal is BUY. -/
theorem C6_signal_cases_witness :
    txsSixty ≠ [] ∧ ∃ s, trackWhale asciiRuntime "0xabc" (some txsSixty) = some s
      ∧ s.buys = 20 ∧ s.sells = 0
      ∧ s.signal = Signal.BUY
      ∧ signalOfSwapped s.buys s.sells = s.signal := by
  have hne : txsSixty ≠ [] := by simp [txsSixty]
  obtain ⟨s, hs, hb, hk, _, _, hacc, hbuy, _, _, _, _, _, hswap⟩ :=
    C6_signal_cases asciiRuntime "0xabc" txsSixty hne
  have hwin : txsSixty.take 20
      = List.replicate 20
          { from_ := "0xdef", to_ := "0xabc", value := JSVal.text (JSNum.fin 1) } := by
    unfold txsSixty
    exact List.take_left' (by simp)
  have hb20 : s.buys = 20 := by
    rw [hb, hwin, List.filter_replicate]
    have : (decide (asciiRuntime.toLowerCase "0xabc" = asciiRuntime.toLowerCase "0xabc")) = true := by
      decide
    simp [this]
  have hk0 : s.sells = 0 := by
    rw [hk, hwin, List.filter_replicate]
    have : (decide (asciiRuntime.toLowerCase "0xdef" = asciiRuntime.toLowerCase "0xabc")) = false := by
      decide
    simp [this]
  refine ⟨hne, s, hs, hb20, hk0, ?_, hswap⟩
  rw [hbuy, hacc, hb20, hk0]
  norm_num

/-! ## Claims: scheduled whale job -/

theorem trackWhale_chainInbound (addr : String)
    (h : asciiLower "0xdef" ≠ asciiLower addr) :
    trackWhale asciiRuntime addr (chainInbound addr)
      = some { address := addr, signal := Signal.BUY, confidence := 70, isAccumulating := true,
               buys := 1, sells := 0 } := by
  have hb : buysOf asciiRuntime addr
      [{ from_ := "0xdef", to_ := addr, value := JSVal.text (JSNum.fin 2500) }]
      = [{ from_ := "0xdef", to_ := addr, value := JSVal.text (JSNum.fin 2500) }] := by
    simp [buysOf, recentOf]
  have hs : sellsOf asciiRuntime addr
      [{ from_ := "0xdef", to_ := addr, value := JSVal.text (JSNum.fin 2500) }] = [] := by
    simp [sellsOf, recentOf, asciiRuntime, h]
  unfold chainInbound
  rw [trackWhale_some _ _ _ (by simp), inboundSum, hb, hs]
  simp [isAccum_one_zero, signalOf, whaleScore, JSNum.gt, JSVal.parseFloat, add_zero_2500]
  norm_num

theorem scanWhales_chainInbound_mem :
    ({ address := "0x742d35Cc6634C0532925a3b844Bc9e7595f0bEb", signal := Signal.BUY,
       confidence := 70, isAccumulating := true, buys := 1, sells := 0 } : WhaleSignal)
      ∈ scanWhales asciiRuntime chainInbound := by
  unfold scanWhales
  rw [List.mem_insertionSort]
  simp [collectWhales, WHALES, trackWhale_chainInbound _
    (by decide : asciiLower "0xdef" ≠ asciiLower "0x742d35Cc6634C0532925a3b844Bc9e7595f0bEb"),
    trackWhale_chainInbound _
    (by decide : asciiLower "0xdef" ≠ asciiLower "0x8ba1f109551bD432803012645Hac136c82C3e8C9")]

/-- C10: the confidence `trackWhale` returns is one of 0, 30, 40, 70; every
signal `scanWhales` keeps has confidence 70, isAccumulating = true and signal
BUY; so the filter of the scheduled whale job (confidence > 80 and BUY) is
empty and the job issues no `copyTrade` call and leaves the store as it is. -/
theorem C10_cron_never_copies (rt : Runtime) (db : Option Ledger)
    (chain again : String → Option (List Transfer)) (hex16 : String) (e : Entropy) :
    (∀ address response s, trackWhale rt address response = some s →
        s.confidence = 0 ∨ s.confidence = 30 ∨ s.confidence = 40 ∨ s.confidence = 70)
      ∧ (∀ s ∈ scanWhales rt chain,
          s.confidence = 70 ∧ s.isAccumulating = true ∧ s.signal = Signal.BUY)
      ∧ strongSignals (scanWhales rt chain) = []
      ∧ whaleCron rt db chain again hex16 e = (db, []) := by
  have hkeep : ∀ s ∈ scanWhales rt chain,
      s.confidence = 70 ∧ s.isAccumulating = true ∧ s.signal = Signal.BUY := by
    intro s hs
    obtain ⟨addr, _, htw, hconf⟩ := scanWhales_mem rt chain s hs
    exact (trackWhale_confidence_values rt addr (chain addr) s htw).2 hconf
  have hstrong : strongSignals (scanWhales rt chain) = [] := by
    unfold strongSignals
    rw [List.filter_eq_nil_iff]
    intro s hs
    have h70 := (hkeep s hs).1
    simp [h70]
  refine ⟨fun address response s hs =>
    (trackWhale_confidence_values rt address response s hs).1, hkeep, hstrong, ?_⟩
  unfold whaleCron
  rw [hstrong]

/-- Witness for C10: a watchlist whose addresses each received one large
transfer yields kept signals of confidence 70, none of them strong. -/
theorem C10_cron_never_copies_witness :
    (∃ s ∈ scanWhales asciiRuntime chainInbound,
        s.confidence = 70 ∧ s.isAccumulating = true ∧ s.signal = Signal.BUY)
      ∧ strongSignals (scanWhales asciiRuntime chainInbound) = []
      ∧ whaleCron asciiRuntime (some ledgerHeld) chainInbound chainInbound "0.beef42" entropyA
          = (some ledgerHeld, []) :=
  ⟨⟨_, scanWhales_chainInbound_mem,
      (C10_cron_never_copies asciiRuntime (some ledgerHeld) chainInbound chainInbound "0.beef42"
        entropyA).2.1 _ scanWhales_chainInbound_mem⟩,
    (C10_cron_never_copies asciiRuntime (some ledgerHeld) chainInbound chainInbound "0.beef42"
      entropyA).2.2.1,
    (C10_cron_never_copies asciiRuntime (some ledgerHeld) chainInbound chainInbound "0.beef42"
      entropyA).2.2.2⟩

/-! ## Helper lemmas: ledger -/

theorem tradeRow_ok (t : Trade) (d sent amount : ℚ) (hfit : fitsColumns t)
    (hamt : t.amount = Amount.fin d) (hsent : toStringValue d = sent)
    (hnum : pgNumeric sent = Except.ok amount) :
    tradeRow t = Except.ok
      { trade_id := t.id, token := t.token, symbol := t.symbol, type := t.type,
        amount := amount, price := t.price, tx := t.tx } := by
  obtain ⟨hid, htok, hsym, hty, htx, hdec, hlt⟩ := hfit
  simp only [tradeRow, pgVarchar_fits _ _ hid, pgVarchar_fits _ _ htok, pgVarchar_fits _ _ hsym,
    pgVarchar_fits _ _ hty, pgVarchar_fits _ _ htx, hamt, Amount.param, hsent, hnum,
    pgNumeric_decimal _ hdec hlt, bind, Except.bind, pure, Except.pure]

theorem tradeRow_overflow (t : Trade) (d : ℚ) (hfit : fitsColumns t)
    (hamt : t.amount = Amount.fin d)
    (hnum : pgNumeric (toStringValue d) = Except.error "numeric field overflow") :
    tradeRow t = Except.error "numeric field overflow" := by
  obtain ⟨hid, htok, hsym, hty, htx, hdec, hlt⟩ := hfit
  simp only [tradeRow, pgVarchar_fits _ _ hid, pgVarchar_fits _ _ htok, pgVarchar_fits _ _ hsym,
    pgVarchar_fits _ _ hty, hamt, Amount.param, hnum, bind, Except.bind]

theorem positionRow_ok (t : Trade) (d sent amount : ℚ) (hfit : fitsColumns t)
    (hamt : t.amount = Amount.fin d) (hsent : toStringValue d = sent)
    (hnum : pgNumeric sent = Except.ok amount) :
    positionRow t = Except.ok
      { token := t.token, symbol := t.symbol, entry := t.price, amount := amount } := by
  obtain ⟨hid, htok, hsym, hty, htx, hdec, hlt⟩ := hfit
  simp only [positionRow, pgVarchar_fits _ _ htok, pgVarchar_fits _ _ hsym, hamt, Amount.param,
    hsent, hnum, pgNumeric_decimal _ hdec hlt, bind, Except.bind, pure, Except.pure]

theorem bumpAmount_absent (tok : String) (sent : ℚ) (ps : List Position)
    (h : ∀ pos ∈ ps, pos.token ≠ tok) : bumpAmount tok sent ps = Except.ok ps := by
  induction ps with
  | nil => rfl
  | cons p ps ih =>
    have hp : p.token ≠ tok := h p (List.mem_cons_self _ _)
    have hrest : ∀ pos ∈ ps, pos.token ≠ tok := fun pos hpos => h pos (List.mem_cons_of_mem _ hpos)
    rw [bumpAmount, if_neg hp, ih hrest]
    rfl

theorem bumpAmount_append_single (tok : String) (sent x : ℚ) (ps : List Position)
    (row : Position) (h : ∀ pos ∈ ps, pos.token ≠ tok) (hrow : row.token = tok)
    (hx : pgNumeric (row.amount + sent) = Except.ok x) :
    bumpAmount tok sent (ps ++ [row]) = Except.ok (ps ++ [{ row with amount := x }]) := by
  induction ps with
  | nil =>
    rw [List.nil_append, bumpAmount, if_pos hrow, hx]
    rfl
  | cons p ps ih =>
    have hp : p.token ≠ tok := h p (List.mem_cons_self _ _)
    have hrest : ∀ pos ∈ ps, pos.token ≠ tok := fun pos hpos => h pos (List.mem_cons_of_mem _ hpos)
    rw [List.cons_append, bumpAmount, if_neg hp, ih hrest]
    rfl

theorem bumpAmount_append_single_error (tok : String) (sent : ℚ) (m : String)
    (ps : List Position) (row : Position) (h : ∀ pos ∈ ps, pos.token ≠ tok)
    (hrow : row.token = tok) (hx : pgNumeric (row.amount + sent) = Except.error m) :
    bumpAmount tok sent (ps ++ [row]) = Except.error m := by
  induction ps with
  | nil =>
    rw [List.nil_append, bumpAmount, if_pos hrow, hx]
    rfl
  | cons p ps ih =>
    have hp : p.token ≠ tok := h p (List.mem_cons_self _ _)
    have hrest : ∀ pos ∈ ps, pos.token ≠ tok := fun pos hpos => h pos (List.mem_cons_of_mem _ hpos)
    rw [List.cons_append, bumpAmount, if_neg hp, ih hrest]
    rfl

theorem bumpAmount_inv (tok : String) (sent : ℚ) :
    ∀ (ps qs : List Position), bumpAmount tok sent ps = Except.ok qs →
      qs.map Position.token = ps.map Position.token
        ∧ (0 ≤ sent → (∀ pos ∈ ps, 0 ≤ pos.amount) → ∀ pos ∈ qs, 0 ≤ pos.amount) := by
  intro ps
  induction ps with
  | nil =>
    intro qs h
    rw [bumpAmount] at h
    injection h with h
    subst h
    exact ⟨rfl, fun _ hp => hp⟩
  | cons p ps ih =>
    intro qs h
    rw [bumpAmount] at h
    cases hrest : bumpAmount tok sent ps with
    | error m =>
      rw [hrest] at h
      by_cases hp : p.token = tok
      · rw [if_pos hp] at h
        cases hx : pgNumeric (p.amount + sent) with
        | error m₂ => rw [hx] at h; cases h
        | ok x => rw [hx] at h; cases h
      · rw [if_neg hp] at h
        cases h
    | ok rest =>
      rw [hrest] at h
      obtain ⟨hmap, hnn⟩ := ih rest hrest
      by_cases hp : p.token = tok
      · rw [if_pos hp] at h
        cases hx : pgNumeric (p.amount + sent) with
        | error m₂ => rw [hx] at h; cases h
        | ok x =>
          rw [hx] at h
          have hq : qs = { p with amount := x } :: rest := by
            injection h with h
            exact h.symm
          subst hq
          refine ⟨by simp [hmap], ?_⟩
          intro hs hall pos hpos
          rw [List.mem_cons] at hpos
          rcases hpos with rfl | hpos
          · exact pgNumeric_nonneg _ _
              (add_nonneg (hall p (List.mem_cons_self _ _)) hs) hx
          · exact hnn hs (fun q hq => hall q (List.mem_cons_of_mem _ hq)) pos hpos
      · rw [if_neg hp] at h
        have hq : qs = p :: rest := by
          injection h with h
          exact h.symm
        subst hq
        refine ⟨by simp [hmap], ?_⟩
        intro hs hall pos hpos
        rw [List.mem_cons] at hpos
        rcases hpos with rfl | hpos
        · exact hall _ (List.mem_cons_self _ _)
        · exact hnn hs (fun q hq => hall q (List.mem_cons_of_mem _ hq)) pos hpos

theorem upsertPosition_absent (ps : List Position) (t : Trade) (row : Position) (sent : ℚ)
    (hrow : positionRow t = Except.ok row) (hsent : t.amount.param = Except.ok sent)
    (h : ∀ pos ∈ ps, pos.token ≠ row.token) :
    upsertPosition ps t = Except.ok (ps ++ [row]) := by
  have hany : ps.any (fun p => decide (p.token = row.token)) = false := by
    rw [List.any_eq_false]
    intro x hx
    simpa using h x hx
  simp only [upsertPosition, hrow, hsent, hany]
  rfl

theorem upsertPosition_present (ps : List Position) (t : Trade) (row : Position) (sent : ℚ)
    (hrow : positionRow t = Except.ok row) (hsent : t.amount.param = Except.ok sent)
    (h : ∃ pos ∈ ps, pos.token = row.token) :
    upsertPosition ps t = bumpAmount row.token sent ps := by
  have hany : ps.any (fun p => decide (p.token = row.token)) = true := by
    rw [List.any_eq_true]
    obtain ⟨pos, hpos, htok⟩ := h
    exact ⟨pos, hpos, by simpa using htok⟩
  simp only [upsertPosition, hrow, hsent, hany]
  rfl

theorem filter_token_absent (ps : List Position) (tok : String)
    (h : ∀ pos ∈ ps, pos.token ≠ tok) :
    ps.filter (fun p => decide (p.token = tok)) = [] := by
  rw [List.filter_eq_nil_iff]
  intro a ha
  simpa using h a ha

theorem applyTrade_buy_ok (l : Ledger) (t : Trade) (row : TradeRow) (ps : List Position)
    (hty : t.type = "BUY") (hrow : tradeRow t = Except.ok row)
    (hps : upsertPosition l.positions t = Except.ok ps) :
    applyTrade (some l) t = (some { positions := ps, trades := l.trades ++ [row] }, none) := by
  simp only [applyTrade, hrow, hty, hps, if_true]

theorem applyTrade_buy_error (l : Ledger) (t : Trade) (row : TradeRow) (m : String)
    (hty : t.type = "BUY") (hrow : tradeRow t = Except.ok row)
    (hps : upsertPosition l.positions t = Except.error m) :
    applyTrade (some l) t
      = (some { positions := l.positions, trades := l.trades ++ [row] }, some m) := by
  simp only [applyTrade, hrow, hty, hps, if_true]

theorem applyTrade_other_ok (l : Ledger) (t : Trade) (row : TradeRow)
    (hty : t.type ≠ "BUY") (hrow : tradeRow t = Except.ok row) :
    applyTrade (some l) t
      = (some { positions := deletePosition l.positions t.token, trades := l.trades ++ [row] },
          none) := by
  simp only [applyTrade, hrow, if_neg hty]

theorem applyTrade_rejected (l : Ledger) (t : Trade) (m : String)
    (hrow : tradeRow t = Except.error m) :
    applyTrade (some l) t = (some l, some m) := by
  simp only [applyTrade, hrow]

theorem execTrade_of_apply_ok (rt : Runtime) (db db₁ : Option Ledger) (p : TradeParams)
    (e : Entropy) (h : applyTrade db (mkTrade rt p e) = (db₁, none)) :
    execTrade rt db p e = (db₁, Except.ok { success := true, trade := mkTrade rt p e }) := by
  simp only [execTrade, h]

theorem execTrade_of_apply_error (rt : Runtime) (db db₁ : Option Ledger) (p : TradeParams)
    (e : Entropy) (m : String) (h : applyTrade db (mkTrade rt p e) = (db₁, some m)) :
    execTrade rt db p e = (db₁, Except.error m) := by
  simp only [execTrade, h]

theorem execTrade_fst (rt : Runtime) (db : Option Ledger) (p : TradeParams) (e : Entropy) :
    (execTrade rt db p e).1 = (applyTrade db (mkTrade rt p e)).1 := by
  cases happ : applyTrade db (mkTrade rt p e) with
  | mk db₁ m =>
    cases m with
    | none => rw [execTrade_of_apply_ok rt db db₁ p e happ]
    | some msg => rw [execTrade_of_apply_error rt db db₁ p e msg happ]

/-! ## Evaluation of the sample trades -/

theorem fitsColumns_sample (rt : Runtime) (p : TradeParams) (e : Entropy) (ty : String)
    (hid : fitsVarchar 50 (substringFrom 7 e.id36))
    (htok : fitsVarchar 42 (orDefault p.token "0x0"))
    (hsym : fitsVarchar 20 (orDefault p.symbol "UNKNOWN"))
    (hty : (mkTrade rt p e).type = ty) (hlen : fitsVarchar 10 ty)
    (htx : fitsVarchar 66 ("0x" ++ substr 2 40 e.tx16))
    (hdec : isDecimal10 e.price) (hlt : |e.price| < (10 : ℚ) ^ 10) :
    fitsColumns (mkTrade rt p e) := by
  refine ⟨hid, htok, hsym, ?_, htx, hdec, hlt⟩
  rw [hty]
  exact hlen

theorem isDecimal10_quarter_milli : isDecimal10 (1 / 4000) := ⟨2500000, by norm_num⟩

theorem isDecimal10_eighth_milli : isDecimal10 (1 / 8000) := ⟨1250000, by norm_num⟩

theorem price_A_lt : |entropyA.price| < (10 : ℚ) ^ 10 :=
  abs_lt.mpr ⟨by norm_num [entropyA], by norm_num [entropyA]⟩

theorem price_B_lt : |entropyB.price| < (10 : ℚ) ^ 10 :=
  abs_lt.mpr ⟨by norm_num [entropyB], by norm_num [entropyB]⟩

theorem fits_paramsBuy_A : fitsColumns (mkTrade asciiRuntime paramsBuy entropyA) :=
  fitsColumns_sample _ _ _ "BUY" (by decide) (by decide) (by decide) (by decide) (by decide)
    (by decide) isDecimal10_quarter_milli price_A_lt

theorem fits_paramsBuy_B : fitsColumns (mkTrade asciiRuntime paramsBuy entropyB) :=
  fitsColumns_sample _ _ _ "BUY" (by decide) (by decide) (by decide) (by decide) (by decide)
    (by decide) isDecimal10_eighth_milli price_B_lt

theorem fits_paramsSell_A : fitsColumns (mkTrade asciiRuntime paramsSell entropyA) :=
  fitsColumns_sample _ _ _ "SELL" (by decide) (by decide) (by decide) (by decide) (by decide)
    (by decide) isDecimal10_quarter_milli price_A_lt

theorem fits_paramsBuyNegative_A :
    fitsColumns (mkTrade asciiRuntime paramsBuyNegative entropyA) :=
  fitsColumns_sample _ _ _ "BUY" (by decide) (by decide) (by decide) (by decide) (by decide)
    (by decide) isDecimal10_quarter_milli price_A_lt

theorem fits_paramsBuyTiny_A : fitsColumns (mkTrade asciiRuntime paramsBuyTiny entropyA) :=
  fitsColumns_sample _ _ _ "BUY" (by decide) (by decide) (by decide) (by decide) (by decide)
    (by decide) isDecimal10_quarter_milli price_A_lt

theorem fits_paramsBuyTiny_B : fitsColumns (mkTrade asciiRuntime paramsBuyTiny entropyB) :=
  fitsColumns_sample _ _ _ "BUY" (by decide) (by decide) (by decide) (by decide) (by decide)
    (by decide) isDecimal10_eighth_milli price_B_lt

theorem fits_paramsBuyBig_A : fitsColumns (mkTrade asciiRuntime paramsBuyBig entropyA) :=
  fitsColumns_sample _ _ _ "BUY" (by decide) (by decide) (by decide) (by decide) (by decide)
    (by decide) isDecimal10_quarter_milli price_A_lt

theorem fits_paramsBuyBig_B : fitsColumns (mkTrade asciiRuntime paramsBuyBig entropyB) :=
  fitsColumns_sample _ _ _ "BUY" (by decide) (by decide) (by decide) (by decide) (by decide)
    (by decide) isDecimal10_eighth_milli price_B_lt

theorem fits_paramsSellHuge_A : fitsColumns (mkTrade asciiRuntime paramsSellHuge entropyA) :=
  fitsColumns_sample _ _ _ "SELL" (by decide) (by decide) (by decide) (by decide) (by decide)
    (by decide) isDecimal10_quarter_milli price_A_lt

theorem toStringValue_100 : toStringValue 100 = 100 :=
  eq_of_ratBeq (by with_unfolding_all decide)

theorem toStringValue_30 : toStringValue 30 = 30 :=
  eq_of_ratBeq (by with_unfolding_all decide)

theorem toStringValue_neg5 : toStringValue (-5) = -5 :=
  eq_of_ratBeq (by with_unfolding_all decide)

theorem toStringValue_6e9 : toStringValue 6000000000 = 6000000000 :=
  eq_of_ratBeq (by with_unfolding_all decide)

theorem toStringValue_1e10 : toStringValue 10000000000 = 10000000000 :=
  eq_of_ratBeq (by with_unfolding_all decide)

theorem lit_5em11 :
    JSNum.lit (5 / 100000000000)
      = JSNum.fin (7737125245533627 / 154742504910672534362390528) :=
  JSNum.eq_of_beq (by with_unfolding_all decide)

theorem toStringValue_5em11 :
    toStringValue (7737125245533627 / 154742504910672534362390528)
      = 5 / 100000000000 :=
  eq_of_ratBeq (by with_unfolding_all decide)

theorem isDecimal10_int (n : ℤ) : isDecimal10 (n : ℚ) :=
  ⟨n * 10 ^ 10, by
    push_cast
    norm_num⟩

theorem pgNumeric_100 : pgNumeric 100 = Except.ok 100 :=
  pgNumeric_decimal 100 (by simpa using isDecimal10_int 100) (by norm_num)

theorem pgNumeric_200 : pgNumeric (100 + 100) = Except.ok 200 := by
  have h := pgNumeric_decimal 200 (by simpa using isDecimal10_int 200) (by norm_num)
  norm_num
  exact h

theorem pgNumeric_30 : pgNumeric 30 = Except.ok 30 :=
  pgNumeric_decimal 30 (by simpa using isDecimal10_int 30) (by norm_num)

theorem pgNumeric_neg5 : pgNumeric (-5) = Except.ok (-5) :=
  pgNumeric_decimal (-5) (by simpa using isDecimal10_int (-5)) (by norm_num)

theorem pgNumeric_6e9 : pgNumeric 6000000000 = Except.ok 6000000000 :=
  pgNumeric_decimal 6000000000 (by simpa using isDecimal10_int 6000000000) (by norm_num)

theorem pgNumeric_12e9 :
    pgNumeric (6000000000 + 6000000000) = Except.error "numeric field overflow" := by
  have h : pgRound10 (6000000000 + 6000000000) = 12000000000 := by
    have := pgRound10_decimal 12000000000 (by simpa using isDecimal10_int 12000000000)
    norm_num
    exact this
  unfold pgNumeric
  rw [h, if_pos (by norm_num)]

theorem pgNumeric_1e10 : pgNumeric 10000000000 = Except.error "numeric field overflow" := by
  have h : pgRound10 10000000000 = 10000000000 :=
    pgRound10_decimal 10000000000 (by simpa using isDecimal10_int 10000000000)
  unfold pgNumeric
  rw [h, if_pos (by norm_num)]

theorem pgRound10_5em11 : pgRound10 (5 / 100000000000) = 1 / 10000000000 :=
  eq_of_ratBeq (by with_unfolding_all decide)

theorem pgRound10_15em11 :
    pgRound10 (1 / 10000000000 + 5 / 100000000000) = 2 / 10000000000 :=
  eq_of_ratBeq (by with_unfolding_all decide)

theorem pgNumeric_5em11 : pgNumeric (5 / 100000000000) = Except.ok (1 / 10000000000) := by
  unfold pgNumeric
  rw [pgRound10_5em11, if_neg (not_le.mpr (abs_lt.mpr ⟨by norm_num, by norm_num⟩))]

theorem pgNumeric_15em11 :
    pgNumeric (1 / 10000000000 + 5 / 100000000000) = Except.ok (2 / 10000000000) := by
  unfold pgNumeric
  rw [pgRound10_15em11, if_neg (not_le.mpr (abs_lt.mpr ⟨by norm_num, by norm_num⟩))]

/-! ## Helper lemmas: one BUY on the store -/

theorem param_fin (t : Trade) (d sent : ℚ) (hamt : t.amount = Amount.fin d)
    (hsent : toStringValue d = sent) : t.amount.param = Except.ok sent := by
  rw [hamt, Amount.param, hsent]

theorem execTrade_buy_new (rt : Runtime) (l : Ledger) (p : TradeParams) (e : Entropy)
    (d sent a : ℚ) (hb : (mkTrade rt p e).type = "BUY") (hfit : fitsColumns (mkTrade rt p e))
    (hamt : (mkTrade rt p e).amount = Amount.fin d) (hsent : toStringValue d = sent)
    (hnum : pgNumeric sent = Except.ok a)
    (hnew : ∀ pos ∈ l.positions, pos.token ≠ (mkTrade rt p e).token) :
    execTrade rt (some l) p e
      = (some
          { positions := l.positions ++
              [{ token := (mkTrade rt p e).token, symbol := (mkTrade rt p e).symbol,
                 entry := (mkTrade rt p e).price, amount := a }]
            trades := l.trades ++
              [{ trade_id := (mkTrade rt p e).id, token := (mkTrade rt p e).token,
                 symbol := (mkTrade rt p e).symbol, type := (mkTrade rt p e).type, amount := a,
                 price := (mkTrade rt p e).price, tx := (mkTrade rt p e).tx }] },
          Except.ok { success := true, trade := mkTrade rt p e }) := by
  apply execTrade_of_apply_ok
  exact applyTrade_buy_ok l _ _ _ hb (tradeRow_ok _ d sent a hfit hamt hsent hnum)
    (upsertPosition_absent _ _ _ sent (positionRow_ok _ d sent a hfit hamt hsent hnum)
      (param_fin _ d sent hamt hsent) hnew)

theorem execTrade_buy_more (rt : Runtime) (ps : List Position) (row₀ : Position)
    (trades : List TradeRow) (p : TradeParams) (e : Entropy) (d sent a x : ℚ)
    (hb : (mkTrade rt p e).type = "BUY") (hfit : fitsColumns (mkTrade rt p e))
    (hamt : (mkTrade rt p e).amount = Amount.fin d) (hsent : toStringValue d = sent)
    (hnum : pgNumeric sent = Except.ok a)
    (hps : ∀ pos ∈ ps, pos.token ≠ (mkTrade rt p e).token)
    (hrow : row₀.token = (mkTrade rt p e).token)
    (hx : pgNumeric (row₀.amount + sent) = Except.ok x) :
    execTrade rt (some { positions := ps ++ [row₀], trades := trades }) p e
      = (some
          { positions := ps ++ [{ row₀ with amount := x }]
            trades := trades ++
              [{ trade_id := (mkTrade rt p e).id, token := (mkTrade rt p e).token,
                 symbol := (mkTrade rt p e).symbol, type := (mkTrade rt p e).type, amount := a,
                 price := (mkTrade rt p e).price, tx := (mkTrade rt p e).tx }] },
          Except.ok { success := true, trade := mkTrade rt p e }) := by
  apply execTrade_of_apply_ok
  refine applyTrade_buy_ok _ _ _ _ hb (tradeRow_ok _ d sent a hfit hamt hsent hnum) ?_
  rw [upsertPosition_present _ _ _ sent (positionRow_ok _ d sent a hfit hamt hsent hnum)
    (param_fin _ d sent hamt hsent)
    ⟨row₀, List.mem_append_right _ (List.mem_singleton_self _), hrow⟩]
  exact bumpAmount_append_single _ sent x ps row₀ hps hrow hx

theorem execTrade_buy_more_error (rt : Runtime) (ps : List Position) (row₀ : Position)
    (trades : List TradeRow) (p : TradeParams) (e : Entropy) (d sent a : ℚ) (m : String)
    (hb : (mkTrade rt p e).type = "BUY") (hfit : fitsColumns (mkTrade rt p e))
    (hamt : (mkTrade rt p e).amount = Amount.fin d) (hsent : toStringValue d = sent)
    (hnum : pgNumeric sent = Except.ok a)
    (hps : ∀ pos ∈ ps, pos.token ≠ (mkTrade rt p e).token)
    (hrow : row₀.token = (mkTrade rt p e).token)
    (hx : pgNumeric (row₀.amount + sent) = Except.error m) :
    execTrade rt (some { positions := ps ++ [row₀], trades := trades }) p e
      = (some
          { positions := ps ++ [row₀]
            trades := trades ++
              [{ trade_id := (mkTrade rt p e).id, token := (mkTrade rt p e).token,
                 symbol := (mkTrade rt p e).symbol, type := (mkTrade rt p e).type, amount := a,
                 price := (mkTrade rt p e).price, tx := (mkTrade rt p e).tx }] },
          Except.error m) := by
  apply execTrade_of_apply_error
  refine applyTrade_buy_error _ _ _ _ hb (tradeRow_ok _ d sent a hfit hamt hsent hnum) ?_
  rw [upsertPosition_present _ _ _ sent (positionRow_ok _ d sent a hfit hamt hsent hnum)
    (param_fin _ d sent hamt hsent)
    ⟨row₀, List.mem_append_right _ (List.mem_singleton_self _), hrow⟩]
  exact bumpAmount_append_single_error _ sent m ps row₀ hps hrow hx

theorem isDecimal10_add (x y : ℚ) (hx : isDecimal10 x) (hy : isDecimal10 y) :
    isDecimal10 (x + y) := by
  obtain ⟨k, rfl⟩ := hx
  obtain ⟨j, rfl⟩ := hy
  exact ⟨k + j, by push_cast; ring⟩

theorem fields_tiny_A :
    (mkTrade asciiRuntime paramsBuyTiny entropyA).id = "2m7p"
      ∧ (mkTrade asciiRuntime paramsBuyTiny entropyA).token = "0xT0"
      ∧ (mkTrade asciiRuntime paramsBuyTiny entropyA).symbol = "TKN"
      ∧ (mkTrade asciiRuntime paramsBuyTiny entropyA).type = "BUY"
      ∧ (mkTrade asciiRuntime paramsBuyTiny entropyA).price = 1 / 4000
      ∧ (mkTrade asciiRuntime paramsBuyTiny entropyA).tx = "0xfeed01c4a8" :=
  ⟨by decide, by decide, by decide, by decide, rfl, by decide⟩

theorem fields_tiny_B :
    (mkTrade asciiRuntime paramsBuyTiny entropyB).id = "5t1w"
      ∧ (mkTrade asciiRuntime paramsBuyTiny entropyB).token = "0xT0"
      ∧ (mkTrade asciiRuntime paramsBuyTiny entropyB).symbol = "TKN"
      ∧ (mkTrade asciiRuntime paramsBuyTiny entropyB).type = "BUY"
      ∧ (mkTrade asciiRuntime paramsBuyTiny entropyB).price = 1 / 8000
      ∧ (mkTrade asciiRuntime paramsBuyTiny entropyB).tx = "0xfeed02b7d3" :=
  ⟨by decide, by decide, by decide, by decide, rfl, by decide⟩

theorem fields_big_A :
    (mkTrade asciiRuntime paramsBuyBig entropyA).id = "2m7p"
      ∧ (mkTrade asciiRuntime paramsBuyBig entropyA).token = "0xT0"
      ∧ (mkTrade asciiRuntime paramsBuyBig entropyA).symbol = "TKN"
      ∧ (mkTrade asciiRuntime paramsBuyBig entropyA).type = "BUY"
      ∧ (mkTrade asciiRuntime paramsBuyBig entropyA).price = 1 / 4000
      ∧ (mkTrade asciiRuntime paramsBuyBig entropyA).tx = "0xfeed01c4a8" :=
  ⟨by decide, by decide, by decide, by decide, rfl, by decide⟩

theorem fields_big_B :
    (mkTrade asciiRuntime paramsBuyBig entropyB).id = "5t1w"
      ∧ (mkTrade asciiRuntime paramsBuyBig entropyB).token = "0xT0"
      ∧ (mkTrade asciiRuntime paramsBuyBig entropyB).symbol = "TKN"
      ∧ (mkTrade asciiRuntime paramsBuyBig entropyB).type = "BUY"
      ∧ (mkTrade asciiRuntime paramsBuyBig entropyB).price = 1 / 8000
      ∧ (mkTrade asciiRuntime paramsBuyBig entropyB).tx = "0xfeed02b7d3" :=
  ⟨by decide, by decide, by decide, by decide, rfl, by decide⟩

/-! ## Claims: trade executor and ledger -/

/-- C3 as stated fails: two BUYs of the amount written 5e-11 store 1e-10 and
then 2e-10, which is four times the amount; and two BUYs of 6000000000 pass
the first call and make the second one throw on the position update, after
its trade row is written, the Position keeping the amount of the first. -/
theorem C3_counterexample_rounding_and_overflow :
    (∃ d, (mkTrade asciiRuntime paramsBuyTiny entropyA).amount = Amount.fin d
        ∧ toStringValue d = 5 / 100000000000
        ∧ execTrade asciiRuntime (some Ledger.empty) paramsBuyTiny entropyA
          = (some
              { positions := [{ token := "0xT0", symbol := "TKN", entry := 1 / 4000,
                                amount := 1 / 10000000000 }]
                trades := [{ trade_id := "2m7p", token := "0xT0", symbol := "TKN",
                             type := "BUY", amount := 1 / 10000000000, price := 1 / 4000,
                             tx := "0xfeed01c4a8" }] },
              Except.ok { success := true, trade := mkTrade asciiRuntime paramsBuyTiny entropyA })
        ∧ (execTrade asciiRuntime
            (execTrade asciiRuntime (some Ledger.empty) paramsBuyTiny entropyA).1
            paramsBuyTiny entropyB).1
          = some
              { positions := [{ token := "0xT0", symbol := "TKN", entry := 1 / 4000,
                                amount := 2 / 10000000000 }]
                trades := [{ trade_id := "2m7p", token := "0xT0", symbol := "TKN",
                             type := "BUY", amount := 1 / 10000000000, price := 1 / 4000,
                             tx := "0xfeed01c4a8" },
                           { trade_id := "5t1w", token := "0xT0", symbol := "TKN",
                             type := "BUY", amount := 1 / 10000000000, price := 1 / 8000,
                             tx := "0xfeed02b7d3" }] }
        ∧ (2 / 10000000000 : ℚ) ≠ 2 * (5 / 100000000000))
      ∧ (execTrade asciiRuntime
            (execTrade asciiRuntime (some Ledger.empty) paramsBuyBig entropyA).1
            paramsBuyBig entropyB
          = (some
              { positions := [{ token := "0xT0", symbol := "TKN", entry := 1 / 4000,
                                amount := 6000000000 }]
                trades := [{ trade_id := "2m7p", token := "0xT0", symbol := "TKN",
                             type := "BUY", amount := 6000000000, price := 1 / 4000,
                             tx := "0xfeed01c4a8" },
                           { trade_id := "5t1w", token := "0xT0", symbol := "TKN",
                             type := "BUY", amount := 6000000000, price := 1 / 8000,
                             tx := "0xfeed02b7d3" }] },
              Except.error "numeric field overflow")) := by
  have hamtT : ∀ e, (mkTrade asciiRuntime paramsBuyTiny e).amount
      = Amount.fin (7737125245533627 / 154742504910672534362390528) := by
    intro e
    show (JSNum.lit (5 / 100000000000)).orZero = _
    rw [lit_5em11]
    rfl
  have h1 := execTrade_buy_new asciiRuntime Ledger.empty paramsBuyTiny entropyA _ _ _
    (by decide) fits_paramsBuyTiny_A (hamtT entropyA) toStringValue_5em11 pgNumeric_5em11
    (by simp [Ledger.empty])
  rw [fields_tiny_A.1, fields_tiny_A.2.1, fields_tiny_A.2.2.1, fields_tiny_A.2.2.2.1,
    fields_tiny_A.2.2.2.2.1, fields_tiny_A.2.2.2.2.2] at h1
  have h2 := execTrade_buy_more asciiRuntime []
    { token := "0xT0", symbol := "TKN", entry := 1 / 4000, amount := 1 / 10000000000 }
    [{ trade_id := "2m7p", token := "0xT0", symbol := "TKN", type := "BUY",
       amount := 1 / 10000000000, price := 1 / 4000, tx := "0xfeed01c4a8" }]
    paramsBuyTiny entropyB _ _ _ _
    (by decide) fits_paramsBuyTiny_B (hamtT entropyB) toStringValue_5em11 pgNumeric_5em11
    (by simp) (by decide) pgNumeric_15em11
  rw [fields_tiny_B.1, fields_tiny_B.2.1, fields_tiny_B.2.2.1, fields_tiny_B.2.2.2.1,
    fields_tiny_B.2.2.2.2.1, fields_tiny_B.2.2.2.2.2] at h2
  have hbig1 := execTrade_buy_new asciiRuntime Ledger.empty paramsBuyBig entropyA
    6000000000 _ _ (by decide) fits_paramsBuyBig_A rfl toStringValue_6e9 pgNumeric_6e9
    (by simp [Ledger.empty])
  rw [fields_big_A.1, fields_big_A.2.1, fields_big_A.2.2.1, fields_big_A.2.2.2.1,
    fields_big_A.2.2.2.2.1, fields_big_A.2.2.2.2.2] at hbig1
  have hbig2 := execTrade_buy_more_error asciiRuntime []
    { token := "0xT0", symbol := "TKN", entry := 1 / 4000, amount := 6000000000 }
    [{ trade_id := "2m7p", token := "0xT0", symbol := "TKN", type := "BUY",
       amount := 6000000000, price := 1 / 4000, tx := "0xfeed01c4a8" }]
    paramsBuyBig entropyB 6000000000 _ _ _
    (by decide) fits_paramsBuyBig_B rfl toStringValue_6e9 pgNumeric_6e9
    (by simp) (by decide) pgNumeric_12e9
  rw [fields_big_B.1, fields_big_B.2.1, fields_big_B.2.2.1, fields_big_B.2.2.2.1,
    fields_big_B.2.2.2.2.1, fields_big_B.2.2.2.2.2] at hbig2
  refine ⟨⟨_, hamtT entropyA, toStringValue_5em11, h1, ?_, by norm_num⟩, ?_⟩
  · rw [h1]
    exact congrArg Prod.fst h2
  · rw [hbig1]
    exact hbig2

/-- C3, amended: with a store connected, let two BUY calls name the same
token and carry the same amount, written A in decimal, where A has at most
ten decimals and |2A| < 10^10, and let the strings of both trades fit their
columns.  On a token with no Position the first call inserts a Position with
entry = the price of the trade and amount A; the second call leaves exactly
one Position for the token, with amount 2A and the entry of the first BUY;
both calls return success and each appends exactly one TradeRecord. -/
theorem C3_buy_twice_adds (rt : Runtime) (l : Ledger) (p₁ p₂ : TradeParams) (e₁ e₂ : Entropy)
    (d A : ℚ)
    (hb₁ : (mkTrade rt p₁ e₁).type = "BUY") (hb₂ : (mkTrade rt p₂ e₂).type = "BUY")
    (htok : (mkTrade rt p₂ e₂).token = (mkTrade rt p₁ e₁).token)
    (ha₁ : (mkTrade rt p₁ e₁).amount = Amount.fin d)
    (ha₂ : (mkTrade rt p₂ e₂).amount = Amount.fin d)
    (hA : toStringValue d = A) (hdec : isDecimal10 A) (hlt : |2 * A| < (10 : ℚ) ^ 10)
    (hf₁ : fitsColumns (mkTrade rt p₁ e₁)) (hf₂ : fitsColumns (mkTrade rt p₂ e₂))
    (hnew : ∀ pos ∈ l.positions, pos.token ≠ (mkTrade rt p₁ e₁).token) :
    ∃ l₁ l₂,
      execTrade rt (some l) p₁ e₁
          = (some l₁, Except.ok { success := true, trade := mkTrade rt p₁ e₁ })
      ∧ execTrade rt (some l₁) p₂ e₂
          = (some l₂, Except.ok { success := true, trade := mkTrade rt p₂ e₂ })
      ∧ l₁.positions = l.positions ++
          [{ token := (mkTrade rt p₁ e₁).token, symbol := (mkTrade rt p₁ e₁).symbol,
             entry := (mkTrade rt p₁ e₁).price, amount := A }]
      ∧ l₂.positions = l.positions ++
          [{ token := (mkTrade rt p₁ e₁).token, symbol := (mkTrade rt p₁ e₁).symbol,
             entry := (mkTrade rt p₁ e₁).price, amount := 2 * A }]
      ∧ l₂.positions.filter (fun q => decide (q.token = (mkTrade rt p₁ e₁).token))
          = [{ token := (mkTrade rt p₁ e₁).token, symbol := (mkTrade rt p₁ e₁).symbol,
               entry := (mkTrade rt p₁ e₁).price, amount := 2 * A }]
      ∧ l₁.trades = l.trades ++
          [{ trade_id := (mkTrade rt p₁ e₁).id, token := (mkTrade rt p₁ e₁).token,
             symbol := (mkTrade rt p₁ e₁).symbol, type := "BUY", amount := A,
             price := (mkTrade rt p₁ e₁).price, tx := (mkTrade rt p₁ e₁).tx }]
      ∧ l₂.trades = l₁.trades ++
          [{ trade_id := (mkTrade rt p₂ e₂).id, token := (mkTrade rt p₁ e₁).token,
             symbol := (mkTrade rt p₂ e₂).symbol, type := "BUY", amount := A,
             price := (mkTrade rt p₂ e₂).price, tx := (mkTrade rt p₂ e₂).tx }] := by
  have h2A : |2 * A| = 2 * |A| := by rw [abs_mul, abs_of_pos (by norm_num : (0 : ℚ) < 2)]
  have hltA : |A| < (10 : ℚ) ^ 10 := by
    have := abs_nonneg A
    linarith
  have hnA : pgNumeric A = Except.ok A := pgNumeric_decimal A hdec hltA
  have hn2A : pgNumeric (A + A) = Except.ok (2 * A) := by
    have h := pgNumeric_decimal (A + A) (isDecimal10_add A A hdec hdec)
      (by rw [← two_mul]; exact hlt)
    rw [h, two_mul]
  have h1 := execTrade_buy_new rt l p₁ e₁ d A A hb₁ hf₁ ha₁ hA hnA hnew
  have h2 := execTrade_buy_more rt l.positions
    { token := (mkTrade rt p₁ e₁).token, symbol := (mkTrade rt p₁ e₁).symbol,
      entry := (mkTrade rt p₁ e₁).price, amount := A }
    (l.trades ++
      [{ trade_id := (mkTrade rt p₁ e₁).id, token := (mkTrade rt p₁ e₁).token,
         symbol := (mkTrade rt p₁ e₁).symbol, type := (mkTrade rt p₁ e₁).type, amount := A,
         price := (mkTrade rt p₁ e₁).price, tx := (mkTrade rt p₁ e₁).tx }])
    p₂ e₂ d A A (2 * A) hb₂ hf₂ ha₂ hA hnA (by rw [htok]; exact hnew) htok.symm hn2A
  refine ⟨_, _, h1, h2, rfl, rfl, ?_, ?_, ?_⟩
  · show (l.positions ++ _).filter _ = _
    rw [List.filter_append, filter_token_absent _ _ hnew]
    simp
  · show l.trades ++ _ = l.trades ++ _
    rw [hb₁]
  · show (l.trades ++ _) ++ _ = (l.trades ++ _) ++ _
    rw [hb₂, htok]

/-- Witness for C3 (amended): two BUYs of 100 units of the token 0xT0 on the
empty ledger leave one Position of 200 units. -/
theorem C3_buy_twice_adds_witness :
    ∃ l₁ l₂,
      execTrade asciiRuntime (some Ledger.empty) paramsBuy entropyA
          = (some l₁, Except.ok { success := true,
                                  trade := mkTrade asciiRuntime paramsBuy entropyA })
      ∧ execTrade asciiRuntime (some l₁) paramsBuy entropyB
          = (some l₂, Except.ok { success := true,
                                  trade := mkTrade asciiRuntime paramsBuy entropyB })
      ∧ l₁.positions = [{ token := "0xT0", symbol := "TKN", entry := 1 / 4000, amount := 100 }]
      ∧ l₂.positions
          = [{ token := "0xT0", symbol := "TKN", entry := 1 / 4000, amount := 2 * 100 }]
      ∧ l₁.trades.length = 1 ∧ l₂.trades.length = 2 := by
  obtain ⟨l₁, l₂, h₁, h₂, hp₁, hp₂, _, ht₁, ht₂⟩ :=
    C3_buy_twice_adds asciiRuntime Ledger.empty paramsBuy paramsBuy entropyA entropyB 100 100
      (by decide) (by decide) rfl rfl rfl toStringValue_100
      (by simpa using isDecimal10_int 100) (abs_lt.mpr ⟨by norm_num, by norm_num⟩)
      fits_paramsBuy_A fits_paramsBuy_B (by simp [Ledger.empty])
  refine ⟨l₁, l₂, h₁, h₂, ?_, ?_, ?_, ?_⟩
  · rw [hp₁]
    rfl
  · rw [hp₂]
    rfl
  · rw [ht₁]
    rfl
  · rw [ht₂, ht₁]
    rfl

theorem tradeRow_infinite (t : Trade) (b : Bool) (hfit : fitsColumns t)
    (hamt : t.amount = Amount.inf b) :
    tradeRow t = Except.error "numeric field overflow" := by
  obtain ⟨hid, htok, hsym, hty, htx, hdec, hlt⟩ := hfit
  simp only [tradeRow, pgVarchar_fits _ _ hid, pgVarchar_fits _ _ htok, pgVarchar_fits _ _ hsym,
    pgVarchar_fits _ _ hty, hamt, Amount.param, bind, Except.bind]

theorem pgNumeric_of_lt (x : ℚ) (h : |pgRound10 x| < (10 : ℚ) ^ 10) :
    pgNumeric x = Except.ok (pgRound10 x) := by
  unfold pgNumeric
  rw [if_neg (not_le.mpr h)]

theorem pgNumeric_of_le (x : ℚ) (h : (10 : ℚ) ^ 10 ≤ |pgRound10 x|) :
    pgNumeric x = Except.error "numeric field overflow" := by
  unfold pgNumeric
  rw [if_pos h]

theorem fits_paramsSellLong_rejected :
    tradeRow (mkTrade asciiRuntime paramsSellLong entropyA)
      = Except.error "value too long for type character varying" := by
  have hid : pgVarchar 50 (mkTrade asciiRuntime paramsSellLong entropyA).id
      = Except.ok (mkTrade asciiRuntime paramsSellLong entropyA).id :=
    pgVarchar_fits _ _ (by decide)
  have htok : pgVarchar 42 (mkTrade asciiRuntime paramsSellLong entropyA).token
      = Except.error "value too long for type character varying" := by
    unfold pgVarchar
    rw [if_neg (by decide), if_neg (by decide), if_neg (by decide)]
  simp only [tradeRow, hid, htok, bind, Except.bind]

/-- C4 as stated fails: with a store connected, a SELL of 10000000000 units
of a token that has a Position throws on the trade insert, so that no
TradeRecord is appended, no success is returned and the Position stays; and
a SELL naming a token of 43 characters, which has no Position, throws as
well. -/
theorem C4_counterexample_rejected_sell :
    (mkTrade asciiRuntime paramsSellHuge entropyA).type = "SELL"
      ∧ (∃ pos ∈ ledgerHeld.positions,
          pos.token = (mkTrade asciiRuntime paramsSellHuge entropyA).token)
      ∧ execTrade asciiRuntime (some ledgerHeld) paramsSellHuge entropyA
          = (some ledgerHeld, Except.error "numeric field overflow")
      ∧ (mkTrade asciiRuntime paramsSellLong entropyA).type = "SELL"
      ∧ (∀ pos ∈ ledgerHeld.positions,
          pos.token ≠ (mkTrade asciiRuntime paramsSellLong entropyA).token)
      ∧ execTrade asciiRuntime (some ledgerHeld) paramsSellLong entropyA
          = (some ledgerHeld, Except.error "value too long for type character varying") := by
  refine ⟨by decide, ⟨_, List.mem_cons_self _ _, by decide⟩, ?_, by decide, by decide, ?_⟩
  · apply execTrade_of_apply_error
    apply applyTrade_rejected
    exact tradeRow_overflow _ 10000000000 fits_paramsSellHuge_A rfl
      (by rw [toStringValue_1e10]; exact pgNumeric_1e10)
  · apply execTrade_of_apply_error
    apply applyTrade_rejected
    exact fits_paramsSellLong_rejected

/-- C4, amended: with a store connected, let a SELL carry strings that fit
their columns.  When its amount, rounded to ten decimals, is below 10^10 in
absolute value, the call appends exactly one TradeRecord and returns
success; afterwards the sold token has no Position, whatever the amount
sold; the Positions of every other token are unchanged; and when the token
had no Position the Position set is unchanged.  When the amount is not below
10^10, or is infinite, the call throws and leaves the store as it is. -/
theorem C4_sell_clears_position (rt : Runtime) (l : Ledger) (p : TradeParams) (e : Entropy)
    (hs : (mkTrade rt p e).type = "SELL") (hfit : fitsColumns (mkTrade rt p e)) :
    (∀ d, (mkTrade rt p e).amount = Amount.fin d →
        |pgRound10 (toStringValue d)| < (10 : ℚ) ^ 10 →
        ∃ l₁, execTrade rt (some l) p e
              = (some l₁, Except.ok { success := true, trade := mkTrade rt p e })
          ∧ l₁.trades = l.trades ++
              [{ trade_id := (mkTrade rt p e).id, token := (mkTrade rt p e).token,
                 symbol := (mkTrade rt p e).symbol, type := "SELL",
                 amount := pgRound10 (toStringValue d), price := (mkTrade rt p e).price,
                 tx := (mkTrade rt p e).tx }]
          ∧ (∀ pos ∈ l₁.positions, pos.token ≠ (mkTrade rt p e).token)
          ∧ (∀ tok, tok ≠ (mkTrade rt p e).token →
              l₁.positions.filter (fun q => decide (q.token = tok))
                = l.positions.filter (fun q => decide (q.token = tok)))
          ∧ ((∀ pos ∈ l.positions, pos.token ≠ (mkTrade rt p e).token) →
              l₁.positions = l.positions))
      ∧ (∀ d, (mkTrade rt p e).amount = Amount.fin d →
          (10 : ℚ) ^ 10 ≤ |pgRound10 (toStringValue d)| →
          execTrade rt (some l) p e = (some l, Except.error "numeric field overflow"))
      ∧ (∀ b, (mkTrade rt p e).amount = Amount.inf b →
          execTrade rt (some l) p e = (some l, Except.error "numeric field overflow")) := by
  have hne : (mkTrade rt p e).type ≠ "BUY" := by
    rw [hs]
    decide
  refine ⟨fun d hamt hlt => ?_, fun d hamt hle => ?_, fun b hamt => ?_⟩
  · have hrow := tradeRow_ok _ d _ _ hfit hamt rfl (pgNumeric_of_lt _ hlt)
    refine ⟨_, execTrade_of_apply_ok rt _ _ p e (applyTrade_other_ok l _ _ hne hrow),
      ?_, ?_, ?_, ?_⟩
    · show l.trades ++ _ = l.trades ++ _
      rw [hs]
    · intro pos hpos
      simpa [deletePosition] using (List.mem_filter.mp hpos).2
    · intro tok htok
      simp only [deletePosition, List.filter_filter]
      apply List.filter_congr
      intro q _
      by_cases hq : q.token = tok
      · simp [hq, htok]
      · simp [hq]
    · intro habs
      simp only [deletePosition]
      rw [List.filter_eq_self]
      intro a ha
      simpa using habs a ha
  · exact execTrade_of_apply_error rt _ _ p e _
      (applyTrade_rejected l _ _ (tradeRow_overflow _ d hfit hamt (pgNumeric_of_le _ hle)))
  · exact execTrade_of_apply_error rt _ _ p e _
      (applyTrade_rejected l _ _ (tradeRow_infinite _ b hfit hamt))

theorem pgRound10_30 : pgRound10 30 = 30 :=
  pgRound10_decimal 30 (by simpa using isDecimal10_int 30)

/-- Witness for C4 (amended): selling 30 of the 100 held units of the token
0xT0 removes its Position and keeps that of 0xT1. -/
theorem C4_sell_clears_position_witness :
    (mkTrade asciiRuntime paramsSell entropyA).type = "SELL"
      ∧ ∃ l₁, execTrade asciiRuntime (some ledgerHeld) paramsSell entropyA
            = (some l₁, Except.ok { success := true,
                                    trade := mkTrade asciiRuntime paramsSell entropyA })
        ∧ l₁.trades.length = ledgerHeld.trades.length + 1
        ∧ (∀ pos ∈ l₁.positions, pos.token ≠ "0xT0")
        ∧ l₁.positions.filter (fun q => decide (q.token = "0xT1"))
            = ledgerHeld.positions.filter (fun q => decide (q.token = "0xT1")) := by
  have hs : (mkTrade asciiRuntime paramsSell entropyA).type = "SELL" := by decide
  obtain ⟨l₁, h₁, htr, hgone, hother, _⟩ :=
    (C4_sell_clears_position asciiRuntime ledgerHeld paramsSell entropyA hs
      fits_paramsSell_A).1 30 rfl
      (by rw [toStringValue_30, pgRound10_30]; exact abs_lt.mpr ⟨by norm_num, by norm_num⟩)
  refine ⟨hs, l₁, h₁, ?_, hgone, hother "0xT1" (by decide)⟩
  rw [htr, List.length_append]
  rfl

/-! ## Helper lemmas: copy trading -/

theorem toFixed_close (d : ℕ) (q : ℚ) : |toFixed d q - q| ≤ 1 / (2 * (10 : ℚ) ^ d) := by
  have hP : (0 : ℚ) < (10 : ℚ) ^ d := by positivity
  unfold toFixed
  split_ifs with hbig hneg
  · rw [sub_self, abs_zero]
    positivity
  · have h1 : ((Rat.floor (|q| * (10 : ℚ) ^ d + 1 / 2) : ℤ) : ℚ) ≤ |q| * (10 : ℚ) ^ d + 1 / 2 :=
      Rat.le_floor.mp le_rfl
    have h2 : |q| * (10 : ℚ) ^ d + 1 / 2
        < ((Rat.floor (|q| * (10 : ℚ) ^ d + 1 / 2) : ℤ) : ℚ) + 1 :=
      Int.lt_floor_add_one (|q| * (10 : ℚ) ^ d + 1 / 2)
    dsimp only
    generalize ((Rat.floor (|q| * (10 : ℚ) ^ d + 1 / 2) : ℤ) : ℚ) = n at h1 h2 ⊢
    rw [abs_of_neg hneg] at h1 h2
    have e : -(n / (10 : ℚ) ^ d) - q = (-q * (10 : ℚ) ^ d - n) / (10 : ℚ) ^ d := by
      field_simp
      ring
    rw [e, abs_le]
    constructor
    · rw [le_div_iff₀ hP]
      have : -(1 / (2 * (10 : ℚ) ^ d)) * (10 : ℚ) ^ d = -(1 / 2) := by
        field_simp
        ring
      rw [this]
      linarith
    · rw [div_le_iff₀ hP]
      have : 1 / (2 * (10 : ℚ) ^ d) * (10 : ℚ) ^ d = 1 / 2 := by
        field_simp
        ring
      rw [this]
      linarith
  · have h1 : ((Rat.floor (|q| * (10 : ℚ) ^ d + 1 / 2) : ℤ) : ℚ) ≤ |q| * (10 : ℚ) ^ d + 1 / 2 :=
      Rat.le_floor.mp le_rfl
    have h2 : |q| * (10 : ℚ) ^ d + 1 / 2
        < ((Rat.floor (|q| * (10 : ℚ) ^ d + 1 / 2) : ℤ) : ℚ) + 1 :=
      Int.lt_floor_add_one (|q| * (10 : ℚ) ^ d + 1 / 2)
    dsimp only
    generalize ((Rat.floor (|q| * (10 : ℚ) ^ d + 1 / 2) : ℤ) : ℚ) = n at h1 h2 ⊢
    rw [abs_of_nonneg (not_lt.mp hneg)] at h1 h2
    have e : n / (10 : ℚ) ^ d - q = (n - q * (10 : ℚ) ^ d) / (10 : ℚ) ^ d := by
      field_simp
      ring
    rw [e, abs_le]
    constructor
    · rw [le_div_iff₀ hP]
      have : -(1 / (2 * (10 : ℚ) ^ d)) * (10 : ℚ) ^ d = -(1 / 2) := by
        field_simp
        ring
      rw [this]
      linarith
    · rw [div_le_iff₀ hP]
      have : 1 / (2 * (10 : ℚ) ^ d) * (10 : ℚ) ^ d = 1 / 2 := by
        field_simp
        ring
      rw [this]
      linarith

theorem orDefault_some (s d : String) (h : s ≠ "") : orDefault (some s) d = s := by
  simp [orDefault, h]

theorem append_ne_empty (a b : String) (h : a ≠ "") : a ++ b ≠ "" := by
  intro hab
  apply h
  have hl : (a ++ b).length = 0 := by rw [hab]; rfl
  rw [String.length_append] at hl
  have ha : a.length = 0 := by omega
  exact String.ext (List.length_eq_zero.mp ha)

theorem copy_type (rt : Runtime) (target hex16 : String) (x : JSNum) (e : Entropy) :
    (mkTrade rt (copyParams target x hex16) e).type = "BUY" := by
  show rt.toUpperCase "BUY" = "BUY"
  rw [rt.upper_ascii "BUY" (by decide)]
  decide

theorem copy_token (rt : Runtime) (target hex16 : String) (x : JSNum) (e : Entropy) :
    (mkTrade rt (copyParams target x hex16) e).token = "0x" ++ substr 2 40 hex16 :=
  orDefault_some ("0x" ++ substr 2 40 hex16) "0x0" (append_ne_empty "0x" _ (by decide))

theorem copy_symbol (rt : Runtime) (target hex16 : String) (x : JSNum) (e : Entropy) :
    (mkTrade rt (copyParams target x hex16) e).symbol = "COPY_" ++ sliceTo 6 target :=
  orDefault_some ("COPY_" ++ sliceTo 6 target) "UNKNOWN" (append_ne_empty "COPY_" _ (by decide))

theorem copy_amount (rt : Runtime) (target hex16 : String) (x : JSNum) (e : Entropy) :
    (mkTrade rt (copyParams target x hex16) e).amount
      = (toFixed6 (((JSNum.lit (1 / 10)).mul x).div100)).parseFloat.orZero := rfl

theorem copyTrade_gate_closed (rt : Runtime) (db : Option Ledger) (target : String)
    (pct : Option JSNum) (response : Option (List Transfer)) (hex16 : String) (e : Entropy)
    (h : trackWhale rt target response = none
      ∨ ∃ s, trackWhale rt target response = some s ∧ s.signal ≠ Signal.BUY) :
    copyTrade rt db target pct response hex16 e
      = (db, Except.ok (CopyResult.failure "No buy signal")) := by
  rcases h with hnone | ⟨s, hs, hsig⟩
  · simp only [copyTrade, hnone]
  · simp only [copyTrade, hs, if_pos hsig]

theorem copyTrade_of_exec_ok (rt : Runtime) (db db₁ : Option Ledger) (target : String)
    (pct : Option JSNum) (response : Option (List Transfer)) (hex16 : String) (e : Entropy)
    (s : WhaleSignal) (r : TradeResult)
    (hs : trackWhale rt target response = some s) (hsig : s.signal = Signal.BUY)
    (hex : execTrade rt db (copyParams target (pct.getD (JSNum.fin 10)) hex16) e
      = (db₁, Except.ok r)) :
    copyTrade rt db target pct response hex16 e = (db₁, Except.ok (CopyResult.done r)) := by
  simp only [copyTrade, hs, hsig, ne_eq, not_true_eq_false, if_false, hex]

theorem copyTrade_of_exec_error (rt : Runtime) (db db₁ : Option Ledger) (target : String)
    (pct : Option JSNum) (response : Option (List Transfer)) (hex16 : String) (e : Entropy)
    (s : WhaleSignal) (m : String)
    (hs : trackWhale rt target response = some s) (hsig : s.signal = Signal.BUY)
    (hex : execTrade rt db (copyParams target (pct.getD (JSNum.fin 10)) hex16) e
      = (db₁, Except.error m)) :
    copyTrade rt db target pct response hex16 e = (db₁, Except.error m) := by
  simp only [copyTrade, hs, hsig, ne_eq, not_true_eq_false, if_false, hex]

theorem copyTrade_fst (rt : Runtime) (db : Option Ledger) (target : String)
    (pct : Option JSNum) (response : Option (List Transfer)) (hex16 : String) (e : Entropy)
    (s : WhaleSignal)
    (hs : trackWhale rt target response = some s) (hsig : s.signal = Signal.BUY) :
    (copyTrade rt db target pct response hex16 e).1
      = (execTrade rt db (copyParams target (pct.getD (JSNum.fin 10)) hex16) e).1 := by
  cases hex : execTrade rt db (copyParams target (pct.getD (JSNum.fin 10)) hex16) e with
  | mk db₁ r =>
    cases r with
    | error m => rw [copyTrade_of_exec_error rt db db₁ target pct response hex16 e s m hs hsig hex]
    | ok r => rw [copyTrade_of_exec_ok rt db db₁ target pct response hex16 e s r hs hsig hex]

theorem execTrade_none (rt : Runtime) (p : TradeParams) (e : Entropy) :
    execTrade rt none p e = (none, Except.ok { success := true, trade := mkTrade rt p e }) :=
  rfl

theorem applyTrade_buy_trades (l : Ledger) (t : Trade) (row : TradeRow)
    (hty : t.type = "BUY") (hrow : tradeRow t = Except.ok row) :
    ∃ l₁, (applyTrade (some l) t).1 = some l₁ ∧ l₁.trades = l.trades ++ [row] := by
  cases hps : upsertPosition l.positions t with
  | error m => exact ⟨_, by rw [applyTrade_buy_error l t row m hty hrow hps], rfl⟩
  | ok ps => exact ⟨_, by rw [applyTrade_buy_ok l t row ps hty hrow hps], rfl⟩

/-! ## Evaluation of the sample copy trades -/

theorem copy_fits (x : JSNum) :
    fitsColumns (mkTrade asciiRuntime (copyParams "0xabc" x "0.beef42") entropyA) :=
  fitsColumns_sample _ _ _ "BUY" (by decide)
    (by
      show fitsVarchar 42 (orDefault (some ("0x" ++ substr 2 40 "0.beef42")) "0x0")
      decide)
    (by
      show fitsVarchar 20 (orDefault (some ("COPY_" ++ sliceTo 6 "0xabc")) "UNKNOWN")
      decide)
    (copy_type _ _ _ _ _) (by decide) (by decide) isDecimal10_quarter_milli price_A_lt

theorem copy_fields (x : JSNum) :
    (mkTrade asciiRuntime (copyParams "0xabc" x "0.beef42") entropyA).id = "2m7p"
      ∧ (mkTrade asciiRuntime (copyParams "0xabc" x "0.beef42") entropyA).token = "0xbeef42"
      ∧ (mkTrade asciiRuntime (copyParams "0xabc" x "0.beef42") entropyA).symbol = "COPY_0xabc"
      ∧ (mkTrade asciiRuntime (copyParams "0xabc" x "0.beef42") entropyA).type = "BUY"
      ∧ (mkTrade asciiRuntime (copyParams "0xabc" x "0.beef42") entropyA).price = 1 / 4000
      ∧ (mkTrade asciiRuntime (copyParams "0xabc" x "0.beef42") entropyA).tx = "0xfeed01c4a8" := by
  refine ⟨?_, ?_, ?_, copy_type _ _ _ _ _, rfl, ?_⟩
  · show substringFrom 7 "0.k3x9q2m7p" = "2m7p"
    decide
  · rw [copy_token]
    decide
  · rw [copy_symbol]
    decide
  · show "0x" ++ substr 2 40 "0.feed01c4a8" = "0xfeed01c4a8"
    decide

theorem notional_10 :
    ((JSNum.lit (1 / 10)).mul (JSNum.fin 10)).div100
      = JSNum.fin (5764607523034235 / 576460752303423488) :=
  JSNum.eq_of_beq (by with_unfolding_all decide)

theorem toFixed_notional_10 : toFixed 6 (5764607523034235 / 576460752303423488) = 1 / 100 :=
  eq_of_ratBeq (by with_unfolding_all decide)

theorem roundDouble_hundredth :
    roundDouble (1 / 100) = JSNum.fin (5764607523034235 / 576460752303423488) :=
  JSNum.eq_of_beq (by with_unfolding_all decide)

theorem toStringValue_hundredth :
    toStringValue (5764607523034235 / 576460752303423488) = 1 / 100 :=
  eq_of_ratBeq (by with_unfolding_all decide)

theorem notional_tiny :
    ((JSNum.lit (1 / 10)).mul (JSNum.lit (1 / 10000))).div100
      = JSNum.fin (7555786372591433 / 75557863725914323419136) :=
  JSNum.eq_of_beq (by with_unfolding_all decide)

theorem toFixed_notional_tiny :
    toFixed 6 (7555786372591433 / 75557863725914323419136) = 0 :=
  eq_of_ratBeq (by with_unfolding_all decide)

theorem notional_15_16 :
    ((JSNum.lit (1 / 10)).mul (JSNum.fin (15 / 16))).div100
      = JSNum.fin (1080863910568919 / 1152921504606846976) :=
  JSNum.eq_of_beq (by with_unfolding_all decide)

theorem toFixed_notional_15_16 :
    toFixed 6 (1080863910568919 / 1152921504606846976) = 937 / 1000000 :=
  eq_of_ratBeq (by with_unfolding_all decide)

theorem roundDouble_937 :
    roundDouble (937 / 1000000) = JSNum.fin (8642299598532925 / 9223372036854775808) :=
  JSNum.eq_of_beq (by with_unfolding_all decide)

theorem toStringValue_937 :
    toStringValue (8642299598532925 / 9223372036854775808) = 937 / 1000000 :=
  eq_of_ratBeq (by with_unfolding_all decide)

theorem toFixed_exact_15_16 : toFixed 6 (1 / 10 * (15 / 16) / 100) = 938 / 1000000 :=
  eq_of_ratBeq (by with_unfolding_all decide)

theorem notional_1e13 :
    ((JSNum.lit (1 / 10)).mul (JSNum.fin 10000000000000)).div100 = JSNum.fin 10000000000 :=
  JSNum.eq_of_beq (by with_unfolding_all decide)

theorem toFixed_1e10 : toFixed 6 10000000000 = 10000000000 :=
  eq_of_ratBeq (by with_unfolding_all decide)

theorem roundDouble_1e10 : roundDouble 10000000000 = JSNum.fin 10000000000 :=
  JSNum.eq_of_beq (by with_unfolding_all decide)

theorem copy_amount_10 (rt : Runtime) (target hex16 : String) (e : Entropy) :
    (mkTrade rt (copyParams target (JSNum.fin 10) hex16) e).amount
      = Amount.fin (5764607523034235 / 576460752303423488) := by
  rw [copy_amount, notional_10]
  show (roundDouble (toFixed 6 (5764607523034235 / 576460752303423488))).orZero = _
  rw [toFixed_notional_10, roundDouble_hundredth]
  rfl

theorem copy_amount_tiny (rt : Runtime) (target hex16 : String) (e : Entropy) :
    (mkTrade rt (copyParams target (JSNum.lit (1 / 10000)) hex16) e).amount = Amount.fin 0 := by
  rw [copy_amount, notional_tiny]
  show (roundDouble (toFixed 6 (7555786372591433 / 75557863725914323419136))).orZero = _
  rw [toFixed_notional_tiny, roundDouble_zero]
  rfl

theorem copy_amount_15_16 (rt : Runtime) (target hex16 : String) (e : Entropy) :
    (mkTrade rt (copyParams target (JSNum.fin (15 / 16)) hex16) e).amount
      = Amount.fin (8642299598532925 / 9223372036854775808) := by
  rw [copy_amount, notional_15_16]
  show (roundDouble (toFixed 6 (1080863910568919 / 1152921504606846976))).orZero = _
  rw [toFixed_notional_15_16, roundDouble_937]
  rfl

theorem copy_amount_1e13 (rt : Runtime) (target hex16 : String) (e : Entropy) :
    (mkTrade rt (copyParams target (JSNum.fin 10000000000000) hex16) e).amount
      = Amount.fin 10000000000 := by
  rw [copy_amount, notional_1e13]
  show (roundDouble (toFixed 6 10000000000)).orZero = _
  rw [toFixed_1e10, roundDouble_1e10]
  rfl

theorem toStringValue_zero : toStringValue 0 = 0 := by simp [toStringValue]

theorem pgNumeric_zero : pgNumeric 0 = Except.ok 0 :=
  pgNumeric_decimal 0 (by simpa using isDecimal10_int 0) (by norm_num)

theorem pgNumeric_hundredth : pgNumeric (1 / 100) = Except.ok (1 / 100) :=
  pgNumeric_decimal _ ⟨100000000, by norm_num⟩ (abs_lt.mpr ⟨by norm_num, by norm_num⟩)

theorem pgNumeric_937 : pgNumeric (937 / 1000000) = Except.ok (937 / 1000000) :=
  pgNumeric_decimal _ ⟨9370000, by norm_num⟩ (abs_lt.mpr ⟨by norm_num, by norm_num⟩)

/-- The store after a sample copy trade on the empty ledger that records the
amount `a`. -/
theorem copyTrade_sample (x : JSNum) (d sent a : ℚ)
    (hamt : (mkTrade asciiRuntime (copyParams "0xabc" x "0.beef42") entropyA).amount
      = Amount.fin d)
    (hsent : toStringValue d = sent) (hnum : pgNumeric sent = Except.ok a) :
    copyTrade asciiRuntime (some Ledger.empty) "0xabc" (some x) (some txsLarge) "0.beef42"
        entropyA
      = (some
          { positions := [{ token := "0xbeef42", symbol := "COPY_0xabc", entry := 1 / 4000,
                            amount := a }]
            trades := [{ trade_id := "2m7p", token := "0xbeef42", symbol := "COPY_0xabc",
                         type := "BUY", amount := a, price := 1 / 4000,
                         tx := "0xfeed01c4a8" }] },
          Except.ok (CopyResult.done
            { success := true
              trade := mkTrade asciiRuntime (copyParams "0xabc" x "0.beef42") entropyA })) := by
  have h := execTrade_buy_new asciiRuntime Ledger.empty (copyParams "0xabc" x "0.beef42")
    entropyA d sent a (copy_type _ _ _ _ _) (copy_fits x) hamt hsent hnum
    (by simp [Ledger.empty])
  rw [(copy_fields x).1, (copy_fields x).2.1, (copy_fields x).2.2.1, (copy_fields x).2.2.2.1,
    (copy_fields x).2.2.2.2.1, (copy_fields x).2.2.2.2.2] at h
  exact copyTrade_of_exec_ok asciiRuntime _ _ "0xabc" (some x) (some txsLarge) "0.beef42"
    entropyA _ _ trackWhale_txsLarge rfl h

/-! ## Claims: copy trading -/

/-- C7 as stated fails: with no store connected a BUY signal makes
`copyTrade` return a trade while no TradeRecord is appended; with a store
connected the percentage 0.0001 records the amount 0; the percentage 0.9375
records 0.000937, where 0.1 * 0.9375 / 100 = 0.0009375 rounds to 0.000938;
and the percentage 10000000000000 makes the call throw with nothing
appended. -/
theorem C7_counterexample_no_store_and_rounding :
    (∃ s, trackWhale asciiRuntime "0xabc" (some txsLarge) = some s ∧ s.signal = Signal.BUY)
      ∧ (∃ r, copyTrade asciiRuntime none "0xabc" (some (JSNum.fin 10)) (some txsLarge)
            "0.beef42" entropyA = (none, Except.ok (CopyResult.done r)))
      ∧ tradeCount (copyTrade asciiRuntime none "0xabc" (some (JSNum.fin 10)) (some txsLarge)
            "0.beef42" entropyA).1 = 0
      ∧ (∃ l row, (copyTrade asciiRuntime (some Ledger.empty) "0xabc"
              (some (JSNum.lit (1 / 10000))) (some txsLarge) "0.beef42" entropyA).1 = some l
            ∧ l.trades = [row] ∧ row.amount = 0)
      ∧ (∃ l row, (copyTrade asciiRuntime (some Ledger.empty) "0xabc"
              (some (JSNum.fin (15 / 16))) (some txsLarge) "0.beef42" entropyA).1 = some l
            ∧ l.trades = [row] ∧ row.amount = 937 / 1000000
            ∧ toFixed 6 (1 / 10 * (15 / 16) / 100) = 938 / 1000000)
      ∧ copyTrade asciiRuntime (some Ledger.empty) "0xabc" (some (JSNum.fin 10000000000000))
            (some txsLarge) "0.beef42" entropyA
          = (some Ledger.empty, Except.error "numeric field overflow") := by
  have hnone : copyTrade asciiRuntime none "0xabc" (some (JSNum.fin 10)) (some txsLarge)
      "0.beef42" entropyA
      = (none, Except.ok (CopyResult.done
          { success := true
            trade := mkTrade asciiRuntime (copyParams "0xabc" (JSNum.fin 10) "0.beef42")
              entropyA })) :=
    copyTrade_of_exec_ok asciiRuntime none none "0xabc" (some (JSNum.fin 10)) (some txsLarge)
      "0.beef42" entropyA _ _ trackWhale_txsLarge rfl (execTrade_none _ _ _)
  refine ⟨⟨_, trackWhale_txsLarge, rfl⟩, ⟨_, hnone⟩, ?_,
    ⟨{ positions := [{ token := "0xbeef42", symbol := "COPY_0xabc", entry := 1 / 4000,
                       amount := 0 }]
       trades := [{ trade_id := "2m7p", token := "0xbeef42", symbol := "COPY_0xabc",
                    type := "BUY", amount := 0, price := 1 / 4000, tx := "0xfeed01c4a8" }] },
      { trade_id := "2m7p", token := "0xbeef42", symbol := "COPY_0xabc", type := "BUY",
        amount := 0, price := 1 / 4000, tx := "0xfeed01c4a8" }, ?_, rfl, rfl⟩,
    ⟨{ positions := [{ token := "0xbeef42", symbol := "COPY_0xabc", entry := 1 / 4000,
                       amount := 937 / 1000000 }]
       trades := [{ trade_id := "2m7p", token := "0xbeef42", symbol := "COPY_0xabc",
                    type := "BUY", amount := 937 / 1000000, price := 1 / 4000,
                    tx := "0xfeed01c4a8" }] },
      { trade_id := "2m7p", token := "0xbeef42", symbol := "COPY_0xabc", type := "BUY",
        amount := 937 / 1000000, price := 1 / 4000, tx := "0xfeed01c4a8" }, ?_, rfl, rfl,
      toFixed_exact_15_16⟩, ?_⟩
  · rw [hnone]
    rfl
  · rw [copyTrade_sample _ 0 0 0 (copy_amount_tiny _ _ _ _) toStringValue_zero pgNumeric_zero]
  · rw [copyTrade_sample _ _ _ _ (copy_amount_15_16 _ _ _ _) toStringValue_937 pgNumeric_937]
  · apply copyTrade_of_exec_error asciiRuntime _ _ "0xabc" _ (some txsLarge) "0.beef42"
      entropyA _ _ trackWhale_txsLarge rfl
    apply execTrade_of_apply_error
    apply applyTrade_rejected
    exact tradeRow_overflow _ 10000000000 (copy_fits _) (copy_amount_1e13 _ _ _ _)
      (by rw [toStringValue_1e10]; exact pgNumeric_1e10)

/-- C7, amended: when `trackWhale` yields no data or a signal other than
BUY, `copyTrade` returns the failure result and leaves the store as it is
(no TradeRecord, no Position change).  When the signal is BUY it builds one
trade of type BUY whose amount is the text `(0.1*pct/100).toFixed(6)` read
back as a number, the arithmetic being that of doubles: the six-decimal
rounding of the double `0.1*pct/100`, within 0.0000005 of that double, and
0.01 for the percentage 10, the default.  With no store connected it returns
the trade and records nothing.  With a store connected and the strings of
the trade fitting their columns: when the amount rounded to ten decimals is
below 10^10, exactly one TradeRecord of type BUY with that amount is
appended, and when the token has no Position the call returns the trade and
inserts the Position; when the amount is not below 10^10, or is infinite,
the call throws and the store is left as it is. -/
theorem C7_copy_trade_gate (rt : Runtime) (db : Option Ledger) (target : String)
    (pct : Option JSNum) (response : Option (List Transfer)) (hex16 : String) (e : Entropy) :
    ((trackWhale rt target response = none
          ∨ ∃ s, trackWhale rt target response = some s ∧ s.signal ≠ Signal.BUY) →
        copyTrade rt db target pct response hex16 e
          = (db, Except.ok (CopyResult.failure "No buy signal")))
      ∧ (∀ s, trackWhale rt target response = some s → s.signal = Signal.BUY →
          ∃ t : Trade,
            t.type = "BUY"
            ∧ t.token = "0x" ++ substr 2 40 hex16
            ∧ t.symbol = "COPY_" ++ sliceTo 6 target
            ∧ t.id = substringFrom 7 e.id36
            ∧ t.tx = "0x" ++ substr 2 40 e.tx16
            ∧ t.price = e.price
            ∧ t.amount
                = (toFixed6 (((JSNum.lit (1 / 10)).mul
                    (pct.getD (JSNum.fin 10))).div100)).parseFloat.orZero
            ∧ (∀ c, ((JSNum.lit (1 / 10)).mul (pct.getD (JSNum.fin 10))).div100 = JSNum.fin c →
                t.amount = (roundDouble (toFixed 6 c)).orZero
                  ∧ |toFixed 6 c - c| ≤ 1 / 2000000)
            ∧ (pct.getD (JSNum.fin 10) = JSNum.fin 10 →
                ∃ d, t.amount = Amount.fin d ∧ toStringValue d = 1 / 100
                  ∧ pgRound10 (toStringValue d) = 1 / 100)
            ∧ (db = none →
                copyTrade rt db target pct response hex16 e
                  = (none, Except.ok (CopyResult.done { success := true, trade := t })))
            ∧ (∀ l, db = some l → fitsColumns t →
                (∀ d, t.amount = Amount.fin d →
                    |pgRound10 (toStringValue d)| < (10 : ℚ) ^ 10 →
                    ∃ l₁, (copyTrade rt db target pct response hex16 e).1 = some l₁
                      ∧ l₁.trades = l.trades ++
                          [{ trade_id := t.id, token := t.token, symbol := t.symbol,
                             type := "BUY", amount := pgRound10 (toStringValue d),
                             price := t.price, tx := t.tx }]
                      ∧ ((∀ pos ∈ l.positions, pos.token ≠ t.token) →
                          copyTrade rt db target pct response hex16 e
                              = (some l₁,
                                  Except.ok (CopyResult.done { success := true, trade := t }))
                            ∧ l₁.positions = l.positions ++
                                [{ token := t.token, symbol := t.symbol, entry := t.price,
                                   amount := pgRound10 (toStringValue d) }]))
                  ∧ (∀ d, t.amount = Amount.fin d →
                      (10 : ℚ) ^ 10 ≤ |pgRound10 (toStringValue d)| →
                      copyTrade rt db target pct response hex16 e
                        = (some l, Except.error "numeric field overflow"))
                  ∧ (∀ b, t.amount = Amount.inf b →
                      copyTrade rt db target pct response hex16 e
                        = (some l, Except.error "numeric field overflow")))) := by
  refine ⟨copyTrade_gate_closed rt db target pct response hex16 e, fun s hs hsig => ?_⟩
  refine ⟨mkTrade rt (copyParams target (pct.getD (JSNum.fin 10)) hex16) e,
    copy_type _ _ _ _ _, copy_token _ _ _ _ _, copy_symbol _ _ _ _ _, rfl, rfl, rfl,
    copy_amount _ _ _ _ _, ?_, ?_, ?_, ?_⟩
  · intro c hc
    rw [copy_amount, hc]
    refine ⟨rfl, ?_⟩
    have h := toFixed_close 6 c
    norm_num at h ⊢
    exact h
  · intro hq
    rw [hq]
    refine ⟨_, copy_amount_10 _ _ _ _, toStringValue_hundredth, ?_⟩
    rw [toStringValue_hundredth]
    exact pgRound10_decimal _ ⟨100000000, by norm_num⟩
  · rintro rfl
    exact copyTrade_of_exec_ok rt none none target pct response hex16 e s _ hs hsig
      (execTrade_none _ _ _)
  · rintro l rfl hfit
    refine ⟨fun d hamt hlt => ?_, fun d hamt hle => ?_, fun b hamt => ?_⟩
    · have hrow := tradeRow_ok _ d _ _ hfit hamt rfl (pgNumeric_of_lt _ hlt)
      rw [copy_type] at hrow
      obtain ⟨l₁, hl₁, htr⟩ := applyTrade_buy_trades l _ _ (copy_type _ _ _ _ _) hrow
      refine ⟨l₁, ?_, htr, fun hnew => ?_⟩
      · rw [copyTrade_fst rt _ target pct response hex16 e s hs hsig, execTrade_fst]
        exact hl₁
      · have hex := execTrade_buy_new rt l (copyParams target (pct.getD (JSNum.fin 10)) hex16)
          e d _ _ (copy_type _ _ _ _ _) hfit hamt rfl (pgNumeric_of_lt _ hlt) hnew
        have hcopy := copyTrade_of_exec_ok rt _ _ target pct response hex16 e s _ hs hsig hex
        rw [← execTrade_fst, hex] at hl₁
        injection hl₁ with hl₁
        subst hl₁
        exact ⟨hcopy, rfl⟩
    · exact copyTrade_of_exec_error rt _ _ target pct response hex16 e s _ hs hsig
        (execTrade_of_apply_error rt _ _ _ e _
          (applyTrade_rejected l _ _ (tradeRow_overflow _ d hfit hamt (pgNumeric_of_le _ hle))))
    · exact copyTrade_of_exec_error rt _ _ target pct response hex16 e s _ hs hsig
        (execTrade_of_apply_error rt _ _ _ e _
          (applyTrade_rejected l _ _ (tradeRow_infinite _ b hfit hamt)))

/-- Witness for C7 (amended): copying 10 percent of a BUY signal onto the
empty ledger records one BUY of 0.01, and a SELL signal leaves the ledger as
it is. -/
theorem C7_copy_trade_gate_witness :
    (∃ l₁ row, (copyTrade asciiRuntime (some Ledger.empty) "0xabc" (some (JSNum.fin 10))
            (some txsLarge) "0.beef42" entropyA).1 = some l₁
          ∧ l₁.trades = Ledger.empty.trades ++ [row] ∧ row.type = "BUY"
          ∧ row.amount = 1 / 100)
      ∧ copyTrade asciiRuntime (some ledgerHeld) "0xabc" none (some txsOut) "0.beef42" entropyA
          = (some ledgerHeld, Except.ok (CopyResult.failure "No buy signal")) := by
  obtain ⟨t, hty, htok, hsym, hid, htx, hpr, _, _, hten, _, hstore⟩ :=
    (C7_copy_trade_gate asciiRuntime (some Ledger.empty) "0xabc" (some (JSNum.fin 10))
      (some txsLarge) "0.beef42" entropyA).2 _ trackWhale_txsLarge rfl
  obtain ⟨d, hd, _, hround⟩ := hten rfl
  have hfit : fitsColumns t := by
    unfold fitsColumns
    rw [hty, htok, hsym, hid, htx, hpr]
    exact ⟨by decide, by decide, by decide, by decide, by decide, isDecimal10_quarter_milli,
      price_A_lt⟩
  obtain ⟨l₁, hl₁, htr, _⟩ := (hstore Ledger.empty rfl hfit).1 d hd
    (by rw [hround]; exact abs_lt.mpr ⟨by norm_num, by norm_num⟩)
  exact ⟨⟨l₁, _, hl₁, htr, rfl, hround⟩,
    (C7_copy_trade_gate asciiRuntime (some ledgerHeld) "0xabc" none (some txsOut) "0.beef42"
      entropyA).1 (Or.inr ⟨_, trackWhale_txsOut, by decide⟩)⟩

/-! ## Helper lemmas: ledger invariant -/

theorem positionRow_amount (t : Trade) (row : Position) (sent : ℚ)
    (hrow : positionRow t = Except.ok row) (hsent : t.amount.param = Except.ok sent) :
    pgNumeric sent = Except.ok row.amount := by
  unfold positionRow at hrow
  cases h1 : pgVarchar 42 t.token with
  | error m => simp only [h1, bind, Except.bind] at hrow; cases hrow
  | ok tok =>
    cases h2 : pgVarchar 20 t.symbol with
    | error m => simp only [h1, h2, bind, Except.bind] at hrow; cases hrow
    | ok sym =>
      cases h3 : pgNumeric t.price with
      | error m => simp only [h1, h2, h3, bind, Except.bind] at hrow; cases hrow
      | ok entry =>
        cases h4 : pgNumeric sent with
        | error m => simp only [h1, h2, h3, hsent, h4, bind, Except.bind] at hrow; cases hrow
        | ok amount =>
          simp only [h1, h2, h3, hsent, h4, bind, Except.bind, pure, Except.pure] at hrow
          injection hrow with hrow
          rw [← hrow]

theorem param_nonneg (t : Trade) (sent : ℚ) (hsent : t.amount.param = Except.ok sent)
    (ha : ∀ q, t.amount = Amount.fin q → 0 ≤ q) : 0 ≤ sent := by
  cases hamt : t.amount with
  | inf b =>
    rw [hamt] at hsent
    cases hsent
  | fin q =>
    rw [hamt] at hsent
    injection hsent with hsent
    rw [← hsent]
    exact toStringValue_nonneg q (ha q hamt)

theorem upsertPosition_inv (ps qs : List Position) (t : Trade)
    (hN : (ps.map Position.token).Nodup) (h : upsertPosition ps t = Except.ok qs) :
    (qs.map Position.token).Nodup
      ∧ ((∀ q, t.amount = Amount.fin q → 0 ≤ q) → (∀ pos ∈ ps, 0 ≤ pos.amount) →
          ∀ pos ∈ qs, 0 ≤ pos.amount) := by
  unfold upsertPosition at h
  cases hrow : positionRow t with
  | error m => simp only [hrow] at h; cases h
  | ok row =>
    cases hsent : t.amount.param with
    | error m => simp only [hrow, hsent] at h; cases h
    | ok sent =>
      simp only [hrow, hsent] at h
      by_cases hany : ps.any (fun p => decide (p.token = row.token)) = true
      · rw [if_pos hany] at h
        obtain ⟨hmap, hnn⟩ := bumpAmount_inv row.token sent ps qs h
        refine ⟨by rw [hmap]; exact hN, fun ha hall => hnn (param_nonneg t sent hsent ha) hall⟩
      · rw [if_neg hany] at h
        injection h with h
        subst h
        have hnot : row.token ∉ ps.map Position.token := by
          intro hmem
          obtain ⟨p, hp, hpt⟩ := List.mem_map.mp hmem
          exact hany (List.any_eq_true.mpr ⟨p, hp, by simpa using hpt⟩)
        refine ⟨?_, fun ha hall pos hpos => ?_⟩
        · rw [List.map_append, List.map_singleton]
          refine List.Nodup.append hN (List.nodup_singleton _) ?_
          intro a ha hb
          rw [List.mem_singleton] at hb
          subst hb
          exact hnot ha
        · rw [List.mem_append, List.mem_singleton] at hpos
          rcases hpos with hpos | rfl
          · exact hall pos hpos
          · exact pgNumeric_nonneg _ _ (param_nonneg t sent hsent ha)
              (positionRow_amount t _ sent hrow hsent)

theorem deletePosition_nodup (ps : List Position) (tok : String)
    (hN : (ps.map Position.token).Nodup) :
    ((deletePosition ps tok).map Position.token).Nodup :=
  List.Nodup.sublist (List.Sublist.map _ (List.filter_sublist ps)) hN

theorem applyTrade_inv (l : Ledger) (t : Trade)
    (hN : (l.positions.map Position.token).Nodup) :
    ∃ l₁, (applyTrade (some l) t).1 = some l₁ ∧ (l₁.positions.map Position.token).Nodup
      ∧ ((t.type = "BUY" → ∀ q, t.amount = Amount.fin q → 0 ≤ q) →
          (∀ pos ∈ l.positions, 0 ≤ pos.amount) → ∀ pos ∈ l₁.positions, 0 ≤ pos.amount) := by
  cases hrow : tradeRow t with
  | error m => exact ⟨l, by rw [applyTrade_rejected l t m hrow], hN, fun _ h => h⟩
  | ok row =>
    by_cases hb : t.type = "BUY"
    · cases hps : upsertPosition l.positions t with
      | error m =>
        exact ⟨{ positions := l.positions, trades := l.trades ++ [row] },
          by rw [applyTrade_buy_error l t row m hb hrow hps], hN, fun _ h => h⟩
      | ok ps =>
        obtain ⟨hN₁, hA₁⟩ := upsertPosition_inv l.positions ps t hN hps
        exact ⟨_, by rw [applyTrade_buy_ok l t row ps hb hrow hps], hN₁,
          fun ha hall => hA₁ (ha hb) hall⟩
    · exact ⟨_, by rw [applyTrade_other_ok l t row hb hrow],
        deletePosition_nodup _ _ hN,
        fun _ hall pos hpos => hall pos (List.mem_of_mem_filter hpos)⟩

theorem runTrades_inv (rt : Runtime) (calls : List (TradeParams × Entropy)) :
    ∀ l : Ledger, (l.positions.map Position.token).Nodup →
      ∃ l₁, runTrades rt (some l) calls = some l₁ ∧ (l₁.positions.map Position.token).Nodup
        ∧ ((∀ c ∈ calls, (mkTrade rt c.1 c.2).type = "BUY" →
              ∀ q, (mkTrade rt c.1 c.2).amount = Amount.fin q → 0 ≤ q) →
            (∀ pos ∈ l.positions, 0 ≤ pos.amount) → ∀ pos ∈ l₁.positions, 0 ≤ pos.amount) := by
  induction calls with
  | nil => exact fun l hN => ⟨l, rfl, hN, fun _ h => h⟩
  | cons c calls ih =>
    intro l hN
    obtain ⟨l₁, h₁, hN₁, hA₁⟩ := applyTrade_inv l (mkTrade rt c.1 c.2) hN
    obtain ⟨l₂, h₂, hN₂, hA₂⟩ := ih l₁ hN₁
    refine ⟨l₂, ?_, hN₂, ?_⟩
    · simp only [runTrades, List.foldl_cons] at h₂ ⊢
      rw [execTrade_fst, h₁]
      exact h₂
    · intro hcalls hpos
      exact hA₂ (fun c' hc' => hcalls c' (List.mem_cons_of_mem _ hc'))
        (hA₁ (hcalls c (List.mem_cons_self _ _)) hpos)

theorem fields_negative_A :
    (mkTrade asciiRuntime paramsBuyNegative entropyA).id = "2m7p"
      ∧ (mkTrade asciiRuntime paramsBuyNegative entropyA).token = "0xT0"
      ∧ (mkTrade asciiRuntime paramsBuyNegative entropyA).symbol = "TKN"
      ∧ (mkTrade asciiRuntime paramsBuyNegative entropyA).type = "BUY"
      ∧ (mkTrade asciiRuntime paramsBuyNegative entropyA).price = 1 / 4000
      ∧ (mkTrade asciiRuntime paramsBuyNegative entropyA).tx = "0xfeed01c4a8" :=
  ⟨by decide, by decide, by decide, by decide, rfl, by decide⟩

/-! ## Claims: ledger invariant -/

/-- C8 as stated fails: on the empty ledger one BUY with the amount -5
leaves a Position whose amount is -5. -/
theorem C8_counterexample_negative_buy :
    runTrades asciiRuntime (some Ledger.empty) [(paramsBuyNegative, entropyA)]
        = some { positions := [{ token := "0xT0", symbol := "TKN", entry := 1 / 4000,
                                 amount := -5 }]
                 trades := [{ trade_id := "2m7p", token := "0xT0", symbol := "TKN",
                              type := "BUY", amount := -5, price := 1 / 4000,
                              tx := "0xfeed01c4a8" }] }
      ∧ ¬ (∀ l, runTrades asciiRuntime (some Ledger.empty) [(paramsBuyNegative, entropyA)]
              = some l →
            ∀ pos ∈ l.positions, 0 ≤ pos.amount) := by
  have hex := execTrade_buy_new asciiRuntime Ledger.empty paramsBuyNegative entropyA (-5) _ _
    (by decide) fits_paramsBuyNegative_A rfl toStringValue_neg5 pgNumeric_neg5
    (by simp [Ledger.empty])
  rw [fields_negative_A.1, fields_negative_A.2.1, fields_negative_A.2.2.1,
    fields_negative_A.2.2.2.1, fields_negative_A.2.2.2.2.1, fields_negative_A.2.2.2.2.2] at hex
  have hrun : runTrades asciiRuntime (some Ledger.empty) [(paramsBuyNegative, entropyA)]
      = some { positions := [{ token := "0xT0", symbol := "TKN", entry := 1 / 4000,
                               amount := -5 }]
               trades := [{ trade_id := "2m7p", token := "0xT0", symbol := "TKN",
                            type := "BUY", amount := -5, price := 1 / 4000,
                            tx := "0xfeed01c4a8" }] } := by
    show (execTrade asciiRuntime (some Ledger.empty) paramsBuyNegative entropyA).1 = _
    rw [hex]
    rfl
  refine ⟨hrun, fun hall => ?_⟩
  have h := hall _ hrun _ (List.mem_singleton_self _)
  norm_num at h

/-- C8, amended: starting from the empty ledger, after every sequence of
`execTrade` calls there is at most one Position per token address, and when
no BUY of the sequence has a negative amount every Position has
amount >= 0. -/
theorem C8_ledger_invariant (rt : Runtime) (calls : List (TradeParams × Entropy)) :
    ∃ l, runTrades rt (some Ledger.empty) calls = some l
      ∧ (l.positions.map Position.token).Nodup
      ∧ ((∀ c ∈ calls, (mkTrade rt c.1 c.2).type = "BUY" →
            ∀ q, (mkTrade rt c.1 c.2).amount = Amount.fin q → 0 ≤ q) →
          ∀ pos ∈ l.positions, 0 ≤ pos.amount) := by
  obtain ⟨l, hl, hN, hA⟩ := runTrades_inv rt calls Ledger.empty (by simp [Ledger.empty])
  exact ⟨l, hl, hN, fun hcalls => hA hcalls (by simp [Ledger.empty])⟩

/-- Witness for C8 (amended): BUY 100, BUY 100, SELL 30 of one token. -/
theorem C8_ledger_invariant_witness :
    (∀ c ∈ [(paramsBuy, entropyA), (paramsBuy, entropyB), (paramsSell, entropyA)],
        (mkTrade asciiRuntime c.1 c.2).type = "BUY" →
          ∀ q, (mkTrade asciiRuntime c.1 c.2).amount = Amount.fin q → 0 ≤ q)
      ∧ ∃ l, runTrades asciiRuntime (some Ledger.empty)
            [(paramsBuy, entropyA), (paramsBuy, entropyB), (paramsSell, entropyA)] = some l
          ∧ (l.positions.map Position.token).Nodup
          ∧ ∀ pos ∈ l.positions, 0 ≤ pos.amount := by
  have hcalls : ∀ c ∈ [(paramsBuy, entropyA), (paramsBuy, entropyB), (paramsSell, entropyA)],
      (mkTrade asciiRuntime c.1 c.2).type = "BUY" →
        ∀ q, (mkTrade asciiRuntime c.1 c.2).amount = Amount.fin q → 0 ≤ q := by
    intro c hc _ q hq
    simp only [List.mem_cons, List.mem_singleton, List.not_mem_nil, or_false] at hc
    rcases hc with rfl | rfl | rfl
    · have h : Amount.fin 100 = Amount.fin q := hq
      injection h with h
      rw [← h]
      norm_num
    · have h : Amount.fin 100 = Amount.fin q := hq
      injection h with h
      rw [← h]
      norm_num
    · have h : Amount.fin 30 = Amount.fin q := hq
      injection h with h
      rw [← h]
      norm_num
  obtain ⟨l, hl, hN, hA⟩ := C8_ledger_invariant asciiRuntime
    [(paramsBuy, entropyA), (paramsBuy, entropyB), (paramsSell, entropyA)]
  exact ⟨hcalls, l, hl, hN, hA hcalls⟩

end Memex
